import Mathlib

/-!
Trajectory publisher: the reference engine of `trajectoryPublisher.cpp`.

A shallow embedding of `trajectory_publisher/src/trajectoryPublisher.cpp`.

Conventions of the embedding.

* C++ `double` values are idealised as exact rationals; the rounding of IEEE
  arithmetic is not modelled.
* A `ros::Time` and a `ros::Duration` are their whole number of nanoseconds, an `Int`.
  The arithmetic of `ros::Duration` follows roscpp: a duration built from a `double`
  is rounded to whole nanoseconds, and building a duration whose seconds do not fit
  a 32-bit signed integer throws.
* `Eigen::Vector3d` is `Vec3`, three rationals.
* `int` members are `Int`.  The only arithmetic on them is `lap_ + 1` and
  `(lap_ + 1) * 2`; no overflow is modelled.
* `std::vector` is `List`; the bounds-checked access `.at(i)` is a lookup that
  fails (`none`) outside the bounds, which models the thrown `std::out_of_range`.
  A function that can throw returns `Option`.
* Publishing (`pubTrajectoryInfo`, `ROS_INFO`, the publishers) writes to no member
  of the object and is left out.
* Every call of `ros::Time::now()` is an explicit argument `now`.
-/

namespace TrajectoryPublisher

/-- An `Eigen::Vector3d`. -/
structure Vec3 where
  x : ℚ
  y : ℚ
  z : ℚ
deriving DecidableEq

namespace Vec3

/-- The Eigen expression `v * k` for a scalar `k`. -/
def scale (v : Vec3) (k : ℚ) : Vec3 := ⟨v.x * k, v.y * k, v.z * k⟩

/-- The Eigen expression `u + v`. -/
def add (u v : Vec3) : Vec3 := ⟨u.x + v.x, u.y + v.y, u.z + v.z⟩

/-- The zero vector. -/
def zero : Vec3 := ⟨0, 0, 0⟩

end Vec3

/-- Modelled from the spec: the motion-primitive classes (`polynomialtrajectory`,
`shapetrajectory` and their common interface) are declared outside the source file.
The operations the publisher calls on a primitive are taken as parameters; `P` is
the state of one primitive object. -/
structure PrimitiveOps (P : Type) where
  /-- A fresh object, `std::make_shared<polynomialtrajectory>()`. -/
  polynomialtrajectory : P
  /-- A fresh object, `std::make_shared<shapetrajectory>(type)`. -/
  shapetrajectory : Int → P
  /-- The call `generatePrimitives(pos, vel, jerk)`. -/
  generatePrimitives3 : P → Vec3 → Vec3 → Vec3 → P
  /-- The call `generatePrimitives(pos, vel)`. -/
  generatePrimitives2 : P → Vec3 → Vec3 → P
  /-- The call `initPrimitives(origin, axis, omega, radius)`. -/
  initPrimitives : P → Vec3 → Vec3 → ℚ → ℚ → P
  /-- The call `getPosition(t)`. -/
  getPosition : P → ℚ → Vec3
  /-- The call `getVelocity(t)`. -/
  getVelocity : P → ℚ → Vec3
  /-- The call `getAcceleration(t)`. -/
  getAcceleration : P → ℚ → Vec3

/-- The data members of a `trajectoryPublisher` object that the source file reads or
writes (node handles, publishers, subscribers and timers left out).

Modelled from the spec: the class declaration is outside the source file, so the type
of `prev_simulated_time_` is not visible; the spec's data model gives the simulated
time as a duration, and it is taken to be a `ros::Duration`. -/
structure State (P : Type) where
  /-- A `ros::Time`, in nanoseconds. -/
  prev_time_ : Int
  /-- A `ros::Time`, in nanoseconds. -/
  curr_time_ : Int
  /-- A `ros::Time`, in nanoseconds. -/
  start_time_ : Int
  /-- A `ros::Duration`, in nanoseconds. -/
  prev_simulated_time_ : Int
  /-- A `double`, in seconds. -/
  trigger_time_ : ℚ
  started_ : Bool
  lap_ : Int
  windup_ratio_ : ℚ
  velocity_scaler_ : ℚ
  init_pos_x_ : ℚ
  init_pos_y_ : ℚ
  init_pos_z_ : ℚ
  controlUpdate_dt_ : ℚ
  primitive_duration_ : ℚ
  max_jerk_ : ℚ
  shape_omega_ : ℚ
  shape_radius_ : ℚ
  shape_origin_ : Vec3
  shape_axis_ : Vec3
  trajectory_type_ : Int
  num_primitives_ : Int
  pubreference_type_ : Int
  motion_selector_ : Int
  inputs_ : List Vec3
  motionPrimitives_ : List P
  p_targ : Vec3
  v_targ : Vec3
  a_targ : Vec3
  p_mav_ : Vec3
  v_mav_ : Vec3

/-- The private parameters read by the constructor (`nh_private_.param`), with the
value each one has after loading. -/
structure Config where
  initpos_x : ℚ
  initpos_y : ℚ
  initpos_z : ℚ
  updaterate : ℚ
  horizon : ℚ
  maxjerk : ℚ
  shape_omega : ℚ
  shape_radius : ℚ
  trajectory_type : Int
  number_of_primitives : Int
  reference_type : Int
  velocity_scaler : ℚ
  windup_ratio : ℚ

/-- The defaults written in the `param` calls of the constructor. -/
def Config.default : Config where
  initpos_x := 0
  initpos_y := 0
  initpos_z := 1
  updaterate := 1 / 100
  horizon := 1
  maxjerk := 10
  shape_omega := 3 / 2
  shape_radius := 1
  trajectory_type := 0
  number_of_primitives := 7
  reference_type := 2
  velocity_scaler := 21 / 10
  windup_ratio := 0

/-- Modelled from the spec: the class declaration (the header) is outside the source
file.  These are the members to which the constructor in the source file never
assigns; their values when the constructor body has run are whatever the
declaration gives them, and are taken as parameters.  `uninit i` is the content of
the `i`-th element created by `inputs_.resize`. -/
structure Members where
  curr_time_ : Int
  start_time_ : Int
  prev_simulated_time_ : Int
  trigger_time_ : ℚ
  started_ : Bool
  lap_ : Int
  a_targ : Vec3
  p_mav_ : Vec3
  v_mav_ : Vec3
  uninit : Nat → Vec3

/-- The smallest 32-bit signed integer. -/
def INT32_MIN : Int := -2147483648

/-- The largest 32-bit signed integer. -/
def INT32_MAX : Int := 2147483647

/-- Nanoseconds in a second. -/
def NSEC : Int := 1000000000

namespace Duration

/-- The roscpp `Duration::fromNSec(t)`, which also underlies `Time - Time` and
`Duration + Duration`: the duration of `t` nanoseconds, normalised to seconds and a
nanosecond part in `[0, 10^9)`; it throws "Duration is out of dual 32-bit range" when
the seconds do not fit a 32-bit signed integer. -/
def fromNSec (t : Int) : Option Int :=
  if INT32_MIN ≤ t / NSEC ∧ t / NSEC ≤ INT32_MAX then some t else none

/-- The roscpp `Duration::toSec()`: seconds as a `double`. -/
def toSec (t : Int) : ℚ := (t : ℚ) / 1000000000

/-- The roscpp `Duration::fromSec(d)`, the constructor `Duration(double)`: seconds are
`floor(d)`, and it throws when they do not fit a 32-bit signed integer; nanoseconds are
`(d - floor(d)) * 1e9` rounded to the nearest integer, half up (the argument of the
rounding is not negative), a full second rolling over into the seconds.  A roll-over
out of the largest second overflows the 32-bit seconds, which is undefined in C++ and
is taken as a failure. -/
def fromSec (d : ℚ) : Option Int :=
  let sec64 : Int := ⌊d⌋
  if sec64 < INT32_MIN ∨ sec64 > INT32_MAX then none
  else
    let nsec : Int := ⌊(d - sec64) * 1000000000 + 1 / 2⌋
    if sec64 = INT32_MAX ∧ nsec = NSEC then none
    else some (sec64 * NSEC + nsec)

end Duration

/-- The expression `(curr_time_ - prev_time_) * scale` of `updateReference` for
`curr_time_ = now`, `prev_time_ = prev` and the `double` `scale = k`: `Time - Time` is
a `Duration` (through `fromNSec`), and `Duration * double` is
`Duration(toSec() * scale)` (through `fromSec`).  Either step can throw. -/
def scaledDelta (k : ℚ) (prev now : Int) : Option Int :=
  match Duration.fromNSec (now - prev) with
  | none => none
  | some dt => Duration.fromSec (Duration.toSec dt * k)

/-- The bounds-checked `v.at(i)` of a vector for an `int` index `i`: the index is
converted to an unsigned size, so a negative one is out of range. -/
def at? {α : Type} (v : List α) (i : Int) : Option α :=
  if 0 ≤ i then v[i.toNat]? else none

/-- The loop of `initializePrimitives` for `type == 0`, from index `i` on:
`motionPrimitives_.at(i)->generatePrimitives(p_mav_, v_mav_, inputs_.at(i))`. -/
def generateFrom {P : Type} (ops : PrimitiveOps P) (p v : Vec3) (inputs : List Vec3) :
    List P → Nat → Option (List P)
  | [], _ => some []
  | q :: qs, i =>
    match inputs[i]? with
    | none => none
    | some u =>
      match generateFrom ops p v inputs qs (i + 1) with
      | none => none
      | some rest => some (ops.generatePrimitives3 q p v u :: rest)

/-- The method `trajectoryPublisher::initializePrimitives(int type)`. -/
def initializePrimitives {P : Type} (ops : PrimitiveOps P) (s : State P) (type : Int) :
    Option (State P) :=
  if type = 0 then
    match generateFrom ops s.p_mav_ s.v_mav_ s.inputs_ s.motionPrimitives_ 0 with
    | none => none
    | some ps => some { s with motionPrimitives_ := ps }
  else
    some { s with motionPrimitives_ := s.motionPrimitives_.map fun q =>
      ops.initPrimitives q s.shape_origin_ s.shape_axis_ s.shape_omega_ s.shape_radius_ }

/-- The method `trajectoryPublisher::updatePrimitives()`. -/
def updatePrimitives {P : Type} (ops : PrimitiveOps P) (s : State P) : State P :=
  { s with motionPrimitives_ := s.motionPrimitives_.map fun q =>
      ops.generatePrimitives2 q s.p_mav_ s.v_mav_ }

/-- The constant jerk inputs the constructor writes when `num_primitives_ == 7`. -/
def unitInputs : List Vec3 :=
  [⟨0, 0, 0⟩, ⟨1, 0, 0⟩, ⟨-1, 0, 0⟩, ⟨0, 1, 0⟩, ⟨0, -1, 0⟩, ⟨0, 0, 1⟩, ⟨0, 0, -1⟩]

/-- The constructor `trajectoryPublisher::trajectoryPublisher`.  `m` holds the members
the body does not assign, `now` is the value of `ros::Time::now()`.  The vectors
`inputs_` and `motionPrimitives_` start empty.  A negative `number_of_primitives`
makes `inputs_.resize` throw. -/
def trajectoryPublisher {P : Type} (ops : PrimitiveOps P) (m : Members) (cfg : Config)
    (now : Int) : Option (State P) :=
  if cfg.number_of_primitives < 0 then none
  else
    let n := cfg.number_of_primitives.toNat
    -- inputs_.resize(num_primitives_)
    let resized : List Vec3 := (List.range n).map m.uninit
    let s : State P :=
      { prev_time_ := now
        curr_time_ := m.curr_time_
        start_time_ := m.start_time_
        prev_simulated_time_ := m.prev_simulated_time_
        trigger_time_ := m.trigger_time_
        started_ := m.started_
        lap_ := m.lap_
        windup_ratio_ := cfg.windup_ratio
        velocity_scaler_ := cfg.velocity_scaler
        init_pos_x_ := cfg.initpos_x
        init_pos_y_ := cfg.initpos_y
        init_pos_z_ := cfg.initpos_z
        controlUpdate_dt_ := cfg.updaterate
        primitive_duration_ := cfg.horizon
        max_jerk_ := cfg.maxjerk
        shape_omega_ := cfg.shape_omega
        shape_radius_ := cfg.shape_radius
        shape_origin_ := ⟨cfg.initpos_x, cfg.initpos_y, cfg.initpos_z⟩
        shape_axis_ := ⟨0, 0, 1⟩
        trajectory_type_ := cfg.trajectory_type
        num_primitives_ := if cfg.trajectory_type = 0 then cfg.number_of_primitives else 1
        pubreference_type_ := cfg.reference_type
        motion_selector_ := 0
        inputs_ :=
          if cfg.trajectory_type = 0 then
            (if cfg.number_of_primitives = 7 then unitInputs else resized).map
              fun u => u.scale cfg.maxjerk
          else resized
        motionPrimitives_ :=
          if cfg.trajectory_type = 0 then List.replicate n ops.polynomialtrajectory
          else [ops.shapetrajectory cfg.trajectory_type]
        p_targ := ⟨cfg.initpos_x, cfg.initpos_y, cfg.initpos_z⟩
        v_targ := ⟨0, 0, 0⟩
        a_targ := m.a_targ
        p_mav_ := m.p_mav_
        v_mav_ := m.v_mav_ }
    initializePrimitives ops s cfg.trajectory_type

/-- The method `trajectoryPublisher::dynamicReconfigureCallback`: only
`velocity_scaler_` can change. -/
def dynamicReconfigureCallback {P : Type} (s : State P) (velocity_scaler : ℚ) : State P :=
  if s.velocity_scaler_ ≠ velocity_scaler then { s with velocity_scaler_ := velocity_scaler }
  else s

/-- The statement `prev_simulated_time_ += time_delta` under `if (started_)`: a
`Duration + Duration`, which throws when the sum leaves the 32-bit seconds range. -/
def accumulate {P : Type} (s : State P) (time_delta : Int) : Option Int :=
  if s.started_ then Duration.fromNSec (s.prev_simulated_time_ + time_delta)
  else some s.prev_simulated_time_

/-- Lines 129-158 of `trajectoryPublisher::updateReference`, up to and including the
windup ramp: the wall-clock delta is scaled (a `ros::Duration`, rounded to whole
nanoseconds) and accumulated, a lap is detected, the windup ratio is stepped.  The
duration arithmetic can throw, before anything but `curr_time_` is written; the step
of the ramp re-runs `initializePrimitives`, which can throw. -/
def advanceClock {P : Type} (ops : PrimitiveOps P) (s : State P) (now : Int) :
    Option (State P) :=
  match scaledDelta (s.windup_ratio_ * s.velocity_scaler_) s.prev_time_ now with
  | none => none
  | some time_delta =>
    let s := { s with curr_time_ := now, prev_time_ := now }
    match accumulate s time_delta with
    | none => none
    | some sim =>
      let s := { s with prev_simulated_time_ := sim }
      let s := { s with trigger_time_ := Duration.toSec s.prev_simulated_time_ }
      let s :=
        if s.trigger_time_ * s.shape_omega_ - (((s.lap_ + 1) * 2 : Int) : ℚ) * (314 / 100) > 0
        then { s with lap_ := s.lap_ + 1 } else s
      if s.started_ then
        if s.windup_ratio_ < 1 then
          let s := { s with windup_ratio_ := s.windup_ratio_ + 1 / 1000 }
          initializePrimitives ops s s.trajectory_type_
        else some s
      else some s

/-- Lines 160-166 of `trajectoryPublisher::updateReference`: the selected primitive is
evaluated at `trigger_time_` and the windup ratio damps velocity and acceleration. -/
def evaluateTarget {P : Type} (ops : PrimitiveOps P) (s : State P) : Option (State P) :=
  match at? s.motionPrimitives_ s.motion_selector_ with
  | none => none
  | some q =>
    let p := ops.getPosition q s.trigger_time_
    let v := ops.getVelocity q s.trigger_time_
    let a := if s.pubreference_type_ ≠ 0 then ops.getAcceleration q s.trigger_time_
      else s.a_targ
    some { s with p_targ := p, a_targ := a.scale s.windup_ratio_,
                  v_targ := v.scale s.windup_ratio_ }

/-- The method `trajectoryPublisher::updateReference()`, one fast tick. -/
def updateReference {P : Type} (ops : PrimitiveOps P) (s : State P) (now : Int) :
    Option (State P) :=
  match advanceClock ops s now with
  | none => none
  | some s1 => evaluateTarget ops s1

/-- The response of the `start` service (`std_srvs::SetBool::Response`). -/
structure Response where
  success : Bool
  message : String
deriving DecidableEq

/-- The method `trajectoryPublisher::triggerCallback`.  The statement
`prev_simulated_time_, start_time_ = ros::Time::now();` is a comma expression: its
left operand is evaluated and discarded, only `start_time_` is assigned.  The result
is the new state, the response and the returned flag. -/
def triggerCallback {P : Type} (s : State P) (_mode : Bool) (now : Int) :
    State P × Response × Bool :=
  ({ s with start_time_ := now, started_ := true },
   { success := true, message := "trajectory triggered" }, true)

/-- The method `trajectoryPublisher::motionselectorCallback`. -/
def motionselectorCallback {P : Type} (ops : PrimitiveOps P) (s : State P) (data : Int)
    (now : Int) : State P :=
  let s := { s with motion_selector_ := data }
  let s := updatePrimitives ops s
  { s with start_time_ := now }

/-- The method `trajectoryPublisher::mavposeCallback`. -/
def mavposeCallback {P : Type} (ops : PrimitiveOps P) (s : State P) (pos : Vec3) : State P :=
  updatePrimitives ops { s with p_mav_ := pos }

/-- The method `trajectoryPublisher::mavtwistCallback`. -/
def mavtwistCallback {P : Type} (ops : PrimitiveOps P) (s : State P) (vel : Vec3) : State P :=
  updatePrimitives ops { s with v_mav_ := vel }

/-- The method `trajectoryPublisher::loopCallback`, the slow tick: `pubrefTrajectory` looks the
selected primitive up with `.at`, and nothing is written to the object. -/
def loopCallback {P : Type} (s : State P) : Option (State P) :=
  match at? s.motionPrimitives_ s.motion_selector_ with
  | none => none
  | some _ => some s

/-- The callbacks that the node dispatches, one at a time. -/
inductive Event where
  | refTick (now : Int)
  | loopTick
  | trigger (mode : Bool) (now : Int)
  | motionselector (data : Int) (now : Int)
  | mavpose (pos : Vec3)
  | mavtwist (vel : Vec3)
  | reconfigure (velocity_scaler : ℚ)

/-- One dispatched callback. -/
def step {P : Type} (ops : PrimitiveOps P) (s : State P) : Event → Option (State P)
  | .refTick now => updateReference ops s now
  | .loopTick => loopCallback s
  | .trigger mode now => some (triggerCallback s mode now).1
  | .motionselector data now => some (motionselectorCallback ops s data now)
  | .mavpose pos => some (mavposeCallback ops s pos)
  | .mavtwist vel => some (mavtwistCallback ops s vel)
  | .reconfigure k => some (dynamicReconfigureCallback s k)

/-- A sequence of dispatched callbacks; it stops at the first one that throws. -/
def run {P : Type} (ops : PrimitiveOps P) (s : State P) : List Event → Option (State P)
  | [] => some s
  | e :: es =>
    match step ops s e with
    | none => none
    | some s1 => run ops s1 es

/-- A sequence of fast ticks at the given wall-clock times. -/
def runTicks {P : Type} (ops : PrimitiveOps P) (s : State P) : List Int → Option (State P)
  | [] => some s
  | now :: rest =>
    match updateReference ops s now with
    | none => none
    | some s1 => runTicks ops s1 rest

/-- The selected index is inside the bounds of the primitive collection. -/
def ValidSelection {P : Type} (s : State P) : Prop :=
  0 ≤ s.motion_selector_ ∧ s.motion_selector_ < s.motionPrimitives_.length

/-- For the polynomial family every primitive has a jerk input, so that the loop of
`initializePrimitives` does not run past the end of `inputs_`. -/
def InputsCover {P : Type} (s : State P) : Prop :=
  s.trajectory_type_ = 0 → s.motionPrimitives_.length ≤ s.inputs_.length

/-- The simulated time after a fast tick at wall-clock time `now`, when the duration
arithmetic of the tick does not throw. -/
def tickClock {P : Type} (s : State P) (now : Int) : Option Int :=
  match scaledDelta (s.windup_ratio_ * s.velocity_scaler_) s.prev_time_ now with
  | none => none
  | some time_delta => accumulate s time_delta

/-- The lap counter after a fast tick that brings the simulated time to `sim`. -/
def nextLap {P : Type} (s : State P) (sim : Int) : Int :=
  if Duration.toSec sim * s.shape_omega_ - (((s.lap_ + 1) * 2 : Int) : ℚ) * (314 / 100) > 0
  then s.lap_ + 1 else s.lap_

/-- The windup ratio after a fast tick. -/
def nextWindup {P : Type} (s : State P) : ℚ :=
  if s.started_ = true ∧ s.windup_ratio_ < 1 then s.windup_ratio_ + 1 / 1000
  else s.windup_ratio_

/-- Modelled from the spec: the parametric curve of a shape primitive (the class
`shapetrajectory` is outside the source file): position, velocity and acceleration
as functions of the family, origin, axis, angular rate, radius and time. -/
structure ShapeCurve where
  pos : Int → Vec3 → Vec3 → ℚ → ℚ → ℚ → Vec3
  vel : Int → Vec3 → Vec3 → ℚ → ℚ → ℚ → Vec3
  acc : Int → Vec3 → Vec3 → ℚ → ℚ → ℚ → Vec3

/-- Modelled from the spec: the state of a primitive object (the classes
`polynomialtrajectory` and `shapetrajectory` are outside the source file).  A
polynomial primitive holds the start position, start velocity and constant jerk it
was generated from; a shape primitive holds its family and shape parameters. -/
inductive SpecPrimitive where
  | polynomial (p0 v0 j : Vec3)
  | shape (type : Int) (origin axis : Vec3) (omega radius : ℚ)
deriving DecidableEq

/-- Modelled from the spec: the operations of the two primitive families (their code
is outside the source file).  Polynomial: `a(t) = j·t`, `v(t) = v0 + j·t²/2`,
`p(t) = p0 + v0·t + j·t³/6`, regenerated from the vehicle state with its fixed jerk.
Shape: a state-free function of time given by the curve `c`.  A primitive that is
not yet generated holds zeros. -/
def specOps (c : ShapeCurve) : PrimitiveOps SpecPrimitive where
  polynomialtrajectory := .polynomial Vec3.zero Vec3.zero Vec3.zero
  shapetrajectory := fun type => .shape type Vec3.zero Vec3.zero 0 0
  generatePrimitives3 := fun q p v j =>
    match q with
    | .polynomial _ _ _ => .polynomial p v j
    | .shape type o a w r => .shape type o a w r
  generatePrimitives2 := fun q p v =>
    match q with
    | .polynomial _ _ j => .polynomial p v j
    | .shape type o a w r => .shape type o a w r
  initPrimitives := fun q o a w r =>
    match q with
    | .polynomial p0 v0 j => .polynomial p0 v0 j
    | .shape type _ _ _ _ => .shape type o a w r
  getPosition := fun q t =>
    match q with
    | .polynomial p0 v0 j => (p0.add (v0.scale t)).add (j.scale (t ^ 3 / 6))
    | .shape type o a w r => c.pos type o a w r t
  getVelocity := fun q t =>
    match q with
    | .polynomial _ v0 j => v0.add (j.scale (t ^ 2 / 2))
    | .shape type o a w r => c.vel type o a w r t
  getAcceleration := fun q t =>
    match q with
    | .polynomial _ _ j => j.scale t
    | .shape type o a w r => c.acc type o a w r t

/-- A shape curve that stays at its origin (radius zero), used where a concrete curve
is needed and the configuration is polynomial. -/
def pointCurve : ShapeCurve where
  pos := fun _ o _ _ _ _ => o
  vel := fun _ _ _ _ _ _ => Vec3.zero
  acc := fun _ _ _ _ _ _ => Vec3.zero

/-- Object memory in which every member the constructor leaves unassigned is zero. -/
def Members.zeroed : Members where
  curr_time_ := 0
  start_time_ := 0
  prev_simulated_time_ := 0
  trigger_time_ := 0
  started_ := false
  lap_ := 0
  a_targ := Vec3.zero
  p_mav_ := Vec3.zero
  v_mav_ := Vec3.zero
  uninit := fun _ => Vec3.zero

/-- The object after construction with the default parameters, zeroed unassigned
members and the polynomial primitives of `specOps`, at wall-clock time 0. -/
def defaultState : State SpecPrimitive where
  prev_time_ := 0
  curr_time_ := 0
  start_time_ := 0
  prev_simulated_time_ := 0
  trigger_time_ := 0
  started_ := false
  lap_ := 0
  windup_ratio_ := 0
  velocity_scaler_ := 21 / 10
  init_pos_x_ := 0
  init_pos_y_ := 0
  init_pos_z_ := 1
  controlUpdate_dt_ := 1 / 100
  primitive_duration_ := 1
  max_jerk_ := 10
  shape_omega_ := 3 / 2
  shape_radius_ := 1
  shape_origin_ := ⟨0, 0, 1⟩
  shape_axis_ := ⟨0, 0, 1⟩
  trajectory_type_ := 0
  num_primitives_ := 7
  pubreference_type_ := 2
  motion_selector_ := 0
  inputs_ := [⟨0, 0, 0⟩, ⟨10, 0, 0⟩, ⟨-10, 0, 0⟩, ⟨0, 10, 0⟩, ⟨0, -10, 0⟩, ⟨0, 0, 10⟩,
    ⟨0, 0, -10⟩]
  motionPrimitives_ :=
    [.polynomial ⟨0, 0, 0⟩ ⟨0, 0, 0⟩ ⟨0, 0, 0⟩, .polynomial ⟨0, 0, 0⟩ ⟨0, 0, 0⟩ ⟨10, 0, 0⟩,
     .polynomial ⟨0, 0, 0⟩ ⟨0, 0, 0⟩ ⟨-10, 0, 0⟩, .polynomial ⟨0, 0, 0⟩ ⟨0, 0, 0⟩ ⟨0, 10, 0⟩,
     .polynomial ⟨0, 0, 0⟩ ⟨0, 0, 0⟩ ⟨0, -10, 0⟩, .polynomial ⟨0, 0, 0⟩ ⟨0, 0, 0⟩ ⟨0, 0, 10⟩,
     .polynomial ⟨0, 0, 0⟩ ⟨0, 0, 0⟩ ⟨0, 0, -10⟩]
  p_targ := ⟨0, 0, 1⟩
  v_targ := ⟨0, 0, 0⟩
  a_targ := ⟨0, 0, 0⟩
  p_mav_ := ⟨0, 0, 0⟩
  v_mav_ := ⟨0, 0, 0⟩

/-- The default object after the trigger, half-way up the windup ramp, with the pure
`+z` jerk primitive selected. -/
def rampingState : State SpecPrimitive :=
  { defaultState with started_ := true, windup_ratio_ := 1 / 2, motion_selector_ := 5 }

/-- The default parameters except an initial windup ratio of 0.9995. -/
def lateRampConfig : Config := { Config.default with windup_ratio := 1999 / 2000 }

/-- The object constructed from `lateRampConfig`. -/
def lateRampState : State SpecPrimitive := { defaultState with windup_ratio_ := 1999 / 2000 }

/-- The part of the state that stays fixed while the object is ticked without having
been triggered: not started, simulated time 0, lap 0, windup ratio `w`, velocity
scaler `vs`, selected index 0, primitives `prims`, reference type `r`. -/
def IdleAt {P : Type} (w vs : ℚ) (prims : List P) (r : Int) (s : State P) : Prop :=
  s.started_ = false ∧ s.prev_simulated_time_ = 0 ∧ s.lap_ = 0 ∧ s.windup_ratio_ = w ∧
  s.velocity_scaler_ = vs ∧ s.motion_selector_ = 0 ∧ s.motionPrimitives_ = prims ∧
  s.pubreference_type_ = r

/-- The target stored by a tick of an idle object: primitive `q` evaluated at time 0,
velocity and (for reference type `r ≠ 0`) acceleration scaled by `w`, hence zero when
`w` is zero. -/
def IdleTarget {P : Type} (ops : PrimitiveOps P) (w : ℚ) (q : P) (r : Int) (s : State P) :
    Prop :=
  s.p_targ = ops.getPosition q 0 ∧
  s.v_targ = (ops.getVelocity q 0).scale w ∧
  (r ≠ 0 → s.a_targ = (ops.getAcceleration q 0).scale w) ∧
  (w = 0 → s.v_targ = ⟨0, 0, 0⟩ ∧ (r ≠ 0 → s.a_targ = ⟨0, 0, 0⟩))

/-- A dispatched callback is not a selector message with an index outside `0 .. n-1`. -/
def selectorInRange (n : Nat) : Event → Prop
  | .motionselector data _ => 0 ≤ data ∧ data < n
  | _ => True

/-- The default parameters except a velocity scaler of 1 and an initial windup ratio
of 1 (no ramp), so that simulated time runs at wall-clock speed once triggered. -/
def lapConfig : Config := { Config.default with velocity_scaler := 1, windup_ratio := 1 }

/-- The object constructed from `lapConfig`. -/
def lapState : State SpecPrimitive :=
  { defaultState with velocity_scaler_ := 1, windup_ratio_ := 1 }


/-- The duration arithmetic of every tick of a sequence succeeds, for an object that
is not started: `k` is the scale `windup_ratio_ * velocity_scaler_`, `prev` the time
of the previous tick. -/
def ticksInRange (k : ℚ) : Int → List Int → Prop
  | _, [] => True
  | prev, now :: rest => (∃ td, scaledDelta k prev now = some td) ∧ ticksInRange k now rest

/-- Modelled from the spec: a rational-valued shape curve (the class `shapetrajectory`
is outside the source file), the second-order expansion at time 0 of the circle of
radius `r` and angular rate `w` about the `z` axis, starting at `o + (r, 0, 0)`:
position `o + r (1 - (w t)² / 2, w t, 0)`, velocity `r (-w² t, w, 0)`, acceleration
`r (-w², 0, 0)`.  At time 0 it has the position, velocity and acceleration of that
circle. -/
def arcCurve : ShapeCurve where
  pos := fun _ o _ w r t => ⟨o.x + r * (1 - (w * t) ^ 2 / 2), o.y + r * (w * t), o.z⟩
  vel := fun _ _ _ w r t => ⟨r * (-(w ^ 2) * t), r * w, 0⟩
  acc := fun _ _ _ w r _ => ⟨r * (-(w ^ 2)), 0, 0⟩

/-- The default parameters except an initial windup ratio of 1 (no ramp). -/
def fullSpeedConfig : Config := { Config.default with windup_ratio := 1 }

/-- The object constructed from `fullSpeedConfig`. -/
def fullSpeedState : State SpecPrimitive := { defaultState with windup_ratio_ := 1 }

/-- The default parameters except the shape family (`trajectory_type` 1), the
reference type `r` and an initial windup ratio of 1/2. -/
def shapeConfig (r : Int) : Config :=
  { Config.default with trajectory_type := 1, reference_type := r, windup_ratio := 1 / 2 }

/-- The object constructed from `shapeConfig r` with zeroed unassigned members: one
shape primitive, initialised with the configured origin, axis, rate and radius; the
seven resized elements of `inputs_` are never written. -/
def shapeState (r : Int) : State SpecPrimitive :=
  { defaultState with
      trajectory_type_ := 1, num_primitives_ := 1, pubreference_type_ := r,
      windup_ratio_ := 1 / 2,
      inputs_ := List.replicate 7 Vec3.zero,
      motionPrimitives_ := [.shape 1 ⟨0, 0, 1⟩ ⟨0, 0, 1⟩ (3 / 2) 1] }

/-! ## Auxiliary lemmas -/

theorem generateFrom_some {P : Type} (ops : PrimitiveOps P) (p v : Vec3) (inputs : List Vec3) :
    ∀ (qs : List P) (i : Nat), qs.length + i ≤ inputs.length →
      ∃ ps, generateFrom ops p v inputs qs i = some ps ∧ ps.length = qs.length := by
  intro qs
  induction qs with
  | nil => intro i _; exact ⟨[], rfl, rfl⟩
  | cons q qs ih =>
    intro i hi
    have hlt : i < inputs.length := by
      simp only [List.length_cons] at hi; omega
    obtain ⟨ps, hps, hlen⟩ := ih (i + 1) (by simp only [List.length_cons] at hi; omega)
    refine ⟨ops.generatePrimitives3 q p v (inputs[i]) :: ps, ?_, by simp [hlen]⟩
    simp [generateFrom, List.getElem?_eq_getElem hlt, hps]

theorem initializePrimitives_some {P : Type} (ops : PrimitiveOps P) (s : State P) (type : Int)
    (h : type = 0 → s.motionPrimitives_.length ≤ s.inputs_.length) :
    ∃ ps, ps.length = s.motionPrimitives_.length ∧
      initializePrimitives ops s type = some { s with motionPrimitives_ := ps } := by
  unfold initializePrimitives
  by_cases ht : type = 0
  · obtain ⟨ps, hps, hlen⟩ :=
      generateFrom_some ops s.p_mav_ s.v_mav_ s.inputs_ s.motionPrimitives_ 0 (by simpa using h ht)
    exact ⟨ps, hlen, by simp [ht, hps]⟩
  · refine ⟨s.motionPrimitives_.map fun q =>
      ops.initPrimitives q s.shape_origin_ s.shape_axis_ s.shape_omega_ s.shape_radius_, ?_, ?_⟩
    · simp
    · simp [ht]

theorem generateFrom_length {P : Type} (ops : PrimitiveOps P) (p v : Vec3) (inputs : List Vec3) :
    ∀ (qs : List P) (i : Nat) (ps : List P),
      generateFrom ops p v inputs qs i = some ps → ps.length = qs.length := by
  intro qs
  induction qs with
  | nil => intro i ps h; simp [generateFrom] at h; simp [← h]
  | cons q qs ih =>
    intro i ps h
    unfold generateFrom at h
    cases hu : inputs[i]? with
    | none => simp [hu] at h
    | some u =>
      cases hr : generateFrom ops p v inputs qs (i + 1) with
      | none => simp [hu, hr] at h
      | some rest =>
        simp [hu, hr] at h
        simp [← h, ih (i + 1) rest hr]

theorem initializePrimitives_of_some {P : Type} (ops : PrimitiveOps P) (s s1 : State P)
    (type : Int) (h : initializePrimitives ops s type = some s1) :
    ∃ ps, ps.length = s.motionPrimitives_.length ∧ s1 = { s with motionPrimitives_ := ps } := by
  unfold initializePrimitives at h
  by_cases ht : type = 0
  · cases hg : generateFrom ops s.p_mav_ s.v_mav_ s.inputs_ s.motionPrimitives_ 0 with
    | none => simp [ht, hg] at h
    | some ps =>
      simp [ht, hg] at h
      exact ⟨ps, generateFrom_length ops _ _ _ _ _ _ hg, h.symm⟩
  · simp [ht] at h
    exact ⟨_, by simp, h.symm⟩

theorem advanceClock_eq {P : Type} (ops : PrimitiveOps P) (s : State P) (now : Int) :
    advanceClock ops s now =
      match tickClock s now with
      | none => none
      | some sim =>
        if s.started_ = true ∧ s.windup_ratio_ < 1 then
          initializePrimitives ops
            { s with curr_time_ := now, prev_time_ := now,
                     prev_simulated_time_ := sim,
                     trigger_time_ := Duration.toSec sim,
                     lap_ := nextLap s sim,
                     windup_ratio_ := s.windup_ratio_ + 1 / 1000 } s.trajectory_type_
        else some
            { s with curr_time_ := now, prev_time_ := now,
                     prev_simulated_time_ := sim,
                     trigger_time_ := Duration.toSec sim,
                     lap_ := nextLap s sim } := by
  unfold advanceClock tickClock
  cases hd : scaledDelta (s.windup_ratio_ * s.velocity_scaler_) s.prev_time_ now with
  | none => rfl
  | some td =>
    have hacc : accumulate { s with curr_time_ := now, prev_time_ := now } td
        = accumulate s td := rfl
    simp only [hacc]
    cases ha : accumulate s td with
    | none => rfl
    | some sim =>
      simp only []
      by_cases hl : Duration.toSec sim * s.shape_omega_
            - (((s.lap_ + 1) * 2 : Int) : ℚ) * (314 / 100) > 0
      · by_cases hs : s.started_ = true
        · by_cases hw : s.windup_ratio_ < 1
          · simp only [nextLap, hs, hw, hl, if_true, and_self]
          · simp only [nextLap, hs, hw, hl, if_true, if_false, and_false]
        · have hs2 : s.started_ = false := by simpa using hs
          simp only [nextLap, hs2, hl, Bool.false_eq_true, if_true, if_false, false_and]
      · by_cases hs : s.started_ = true
        · by_cases hw : s.windup_ratio_ < 1
          · simp only [nextLap, hs, hw, hl, if_true, if_false, and_self]
          · simp only [nextLap, hs, hw, hl, if_true, if_false, and_false]
        · have hs2 : s.started_ = false := by simpa using hs
          simp only [nextLap, hs2, hl, Bool.false_eq_true, if_false, false_and]

theorem advanceClock_some {P : Type} (ops : PrimitiveOps P) (s : State P) (now sim : Int)
    (h : InputsCover s) (hc : tickClock s now = some sim) :
    ∃ ps, ps.length = s.motionPrimitives_.length ∧
      (¬ (s.started_ = true ∧ s.windup_ratio_ < 1) → ps = s.motionPrimitives_) ∧
      advanceClock ops s now = some
        { s with curr_time_ := now, prev_time_ := now,
                 prev_simulated_time_ := sim,
                 trigger_time_ := Duration.toSec sim,
                 lap_ := nextLap s sim,
                 windup_ratio_ := nextWindup s,
                 motionPrimitives_ := ps } := by
  rw [advanceClock_eq, hc]
  by_cases hw : s.started_ = true ∧ s.windup_ratio_ < 1
  · obtain ⟨ps, hlen, hps⟩ := initializePrimitives_some ops
      { s with curr_time_ := now, prev_time_ := now,
               prev_simulated_time_ := sim,
               trigger_time_ := Duration.toSec sim,
               lap_ := nextLap s sim,
               windup_ratio_ := s.windup_ratio_ + 1 / 1000 } s.trajectory_type_ h
    refine ⟨ps, hlen, fun hn => absurd hw hn, ?_⟩
    simp only [hw, and_self, if_true, nextWindup] at hps ⊢
    exact hps
  · refine ⟨s.motionPrimitives_, rfl, fun _ => rfl, ?_⟩
    simp only [hw, if_false, nextWindup]

theorem advanceClock_of_some {P : Type} (ops : PrimitiveOps P) (s s1 : State P) (now : Int)
    (h : advanceClock ops s now = some s1) :
    ∃ sim ps, tickClock s now = some sim ∧ ps.length = s.motionPrimitives_.length ∧
      (¬ (s.started_ = true ∧ s.windup_ratio_ < 1) → ps = s.motionPrimitives_) ∧
      s1 = { s with curr_time_ := now, prev_time_ := now,
                    prev_simulated_time_ := sim,
                    trigger_time_ := Duration.toSec sim,
                    lap_ := nextLap s sim,
                    windup_ratio_ := nextWindup s,
                    motionPrimitives_ := ps } := by
  rw [advanceClock_eq] at h
  cases hc : tickClock s now with
  | none => simp [hc] at h
  | some sim =>
    simp only [hc] at h
    by_cases hw : s.started_ = true ∧ s.windup_ratio_ < 1
    · simp only [hw, and_self, if_true] at h
      obtain ⟨ps, hlen, hps⟩ := initializePrimitives_of_some ops _ _ _ h
      refine ⟨sim, ps, rfl, hlen, fun hn => absurd hw hn, ?_⟩
      simp only [hw, and_self, if_true, nextWindup]
      exact hps
    · simp only [hw, if_false, Option.some.injEq] at h
      refine ⟨sim, s.motionPrimitives_, rfl, rfl, fun _ => rfl, ?_⟩
      simp only [hw, if_false, nextWindup]
      exact h.symm

theorem at?_some {α : Type} (v : List α) (i : Int) (h0 : 0 ≤ i) (h1 : i < v.length) :
    ∃ q, at? v i = some q := by
  have hlt : i.toNat < v.length := by omega
  exact ⟨v[i.toNat], by simp [at?, h0, List.getElem?_eq_getElem hlt]⟩

theorem at?_none {α : Type} (v : List α) (i : Int) (h : i < 0 ∨ (v.length : Int) ≤ i) :
    at? v i = none := by
  unfold at?
  by_cases h0 : 0 ≤ i
  · have hge : v.length ≤ i.toNat := by omega
    simp [h0, List.getElem?_eq_none hge]
  · simp [h0]

theorem at?_valid {α : Type} (v : List α) (i : Int) (q : α) (h : at? v i = some q) :
    0 ≤ i ∧ i < v.length := by
  by_contra hn
  have : i < 0 ∨ (v.length : Int) ≤ i := by omega
  rw [at?_none v i this] at h
  exact Option.noConfusion h

/-- What one fast tick does to the whole object, when it does not throw. -/
theorem updateReference_some {P : Type} (ops : PrimitiveOps P) (s : State P) (now sim : Int)
    (hsel : ValidSelection s) (hin : InputsCover s) (hc : tickClock s now = some sim) :
    ∃ ps q, ps.length = s.motionPrimitives_.length ∧
      (¬ (s.started_ = true ∧ s.windup_ratio_ < 1) → ps = s.motionPrimitives_) ∧
      at? ps s.motion_selector_ = some q ∧
      updateReference ops s now = some
        { s with curr_time_ := now, prev_time_ := now,
                 prev_simulated_time_ := sim,
                 trigger_time_ := Duration.toSec sim,
                 lap_ := nextLap s sim,
                 windup_ratio_ := nextWindup s,
                 motionPrimitives_ := ps,
                 p_targ := ops.getPosition q (Duration.toSec sim),
                 a_targ := (if s.pubreference_type_ ≠ 0
                   then ops.getAcceleration q (Duration.toSec sim)
                   else s.a_targ).scale (nextWindup s),
                 v_targ := (ops.getVelocity q (Duration.toSec sim)).scale (nextWindup s) } := by
  obtain ⟨ps, hlen, hsame, hadv⟩ := advanceClock_some ops s now sim hin hc
  obtain ⟨q, hq⟩ := at?_some ps s.motion_selector_ hsel.1 (by rw [hlen]; exact hsel.2)
  refine ⟨ps, q, hlen, hsame, hq, ?_⟩
  simp only [updateReference, hadv, evaluateTarget, hq]

/-- What a completed fast tick has done to the whole object. -/
theorem updateReference_of_some {P : Type} (ops : PrimitiveOps P) (s s1 : State P) (now : Int)
    (h : updateReference ops s now = some s1) :
    ∃ sim ps q, tickClock s now = some sim ∧ ps.length = s.motionPrimitives_.length ∧
      (¬ (s.started_ = true ∧ s.windup_ratio_ < 1) → ps = s.motionPrimitives_) ∧
      at? ps s.motion_selector_ = some q ∧
      s1 =
        { s with curr_time_ := now, prev_time_ := now,
                 prev_simulated_time_ := sim,
                 trigger_time_ := Duration.toSec sim,
                 lap_ := nextLap s sim,
                 windup_ratio_ := nextWindup s,
                 motionPrimitives_ := ps,
                 p_targ := ops.getPosition q (Duration.toSec sim),
                 a_targ := (if s.pubreference_type_ ≠ 0
                   then ops.getAcceleration q (Duration.toSec sim)
                   else s.a_targ).scale (nextWindup s),
                 v_targ := (ops.getVelocity q (Duration.toSec sim)).scale (nextWindup s) } := by
  unfold updateReference at h
  cases ha : advanceClock ops s now with
  | none => simp [ha] at h
  | some s2 =>
    obtain ⟨sim, ps, hc, hlen, hsame, hs2⟩ := advanceClock_of_some ops s s2 now ha
    simp only [ha] at h
    subst hs2
    unfold evaluateTarget at h
    cases hq : at? ps s.motion_selector_ with
    | none => simp [hq] at h
    | some q =>
      simp only [hq, Option.some.injEq] at h
      exact ⟨sim, ps, q, hc, hlen, hsame, hq, h.symm⟩

/-- A fast tick with the selected index out of range throws. -/
theorem updateReference_invalid {P : Type} (ops : PrimitiveOps P) (s : State P) (now : Int)
    (h : s.motion_selector_ < 0 ∨ (s.motionPrimitives_.length : Int) ≤ s.motion_selector_) :
    updateReference ops s now = none := by
  cases hu : updateReference ops s now with
  | none => rfl
  | some s1 =>
    obtain ⟨sim, ps, q, _, hlen, _, hq, _⟩ := updateReference_of_some ops s s1 now hu
    have := at?_valid ps _ q hq
    omega

/-- A fast tick whose duration arithmetic throws stores nothing. -/
theorem updateReference_overflow {P : Type} (ops : PrimitiveOps P) (s : State P) (now : Int)
    (h : tickClock s now = none) : updateReference ops s now = none := by
  cases hu : updateReference ops s now with
  | none => rfl
  | some s1 =>
    obtain ⟨sim, _, _, hc, _⟩ := updateReference_of_some ops s s1 now hu
    rw [h] at hc
    exact Option.noConfusion hc


/-! ## Duration arithmetic -/

/-- A duration built from a `double` differs from it by at most half a nanosecond. -/
theorem Duration.fromSec_error (d : ℚ) (t : Int) (h : Duration.fromSec d = some t) :
    |Duration.toSec t - d| ≤ 1 / 2000000000 := by
  unfold Duration.fromSec at h
  simp only at h
  split at h
  · exact Option.noConfusion h
  · split at h
    · exact Option.noConfusion h
    · simp only [Option.some.injEq] at h
      subst h
      have h1 := Int.floor_le ((d - (⌊d⌋ : ℚ)) * 1000000000 + 1 / 2)
      have h2 := Int.lt_floor_add_one ((d - (⌊d⌋ : ℚ)) * 1000000000 + 1 / 2)
      rw [abs_le]
      unfold Duration.toSec NSEC
      push_cast
      constructor <;> linarith

/-- The scaled delta of a tick is the exact product of the wall-clock delta and the
scale, up to half a nanosecond. -/
theorem scaledDelta_error (k : ℚ) (prev now td : Int) (h : scaledDelta k prev now = some td) :
    |Duration.toSec td - Duration.toSec (now - prev) * k| ≤ 1 / 2000000000 := by
  unfold scaledDelta at h
  cases hd : Duration.fromNSec (now - prev) with
  | none => simp [hd] at h
  | some dt =>
    simp only [hd] at h
    have hdt : dt = now - prev := by
      unfold Duration.fromNSec at hd
      split at hd
      · exact (Option.some.inj hd).symm
      · exact Option.noConfusion hd
    subst hdt
    exact Duration.fromSec_error _ _ h

theorem tickClock_of_some {P : Type} (s : State P) (now sim : Int)
    (h : tickClock s now = some sim) :
    ∃ td, scaledDelta (s.windup_ratio_ * s.velocity_scaler_) s.prev_time_ now = some td ∧
      (s.started_ = false → sim = s.prev_simulated_time_) ∧
      (s.started_ = true → sim = s.prev_simulated_time_ + td) := by
  unfold tickClock at h
  cases hd : scaledDelta (s.windup_ratio_ * s.velocity_scaler_) s.prev_time_ now with
  | none => simp [hd] at h
  | some td =>
    simp only [hd, accumulate] at h
    refine ⟨td, rfl, ?_, ?_⟩
    · intro hs
      simp only [hs, Bool.false_eq_true, if_false, Option.some.injEq] at h
      exact h.symm
    · intro hs
      simp only [hs, if_true] at h
      unfold Duration.fromNSec at h
      split at h
      · exact (Option.some.inj h).symm
      · exact Option.noConfusion h

/-- While the object is not started the simulated time is not touched, so the clock
part of a tick succeeds as soon as the scaled delta can be built. -/
theorem tickClock_idle {P : Type} (s : State P) (now td : Int) (hs : s.started_ = false)
    (h : scaledDelta (s.windup_ratio_ * s.velocity_scaler_) s.prev_time_ now = some td) :
    tickClock s now = some s.prev_simulated_time_ := by
  simp [tickClock, h, accumulate, hs]

/-! ## Construction -/

/-- What the constructor has set when it has run. -/
theorem trajectoryPublisher_of_some {P : Type} (ops : PrimitiveOps P) (m : Members)
    (cfg : Config) (now : Int) (s0 : State P) (h : trajectoryPublisher ops m cfg now = some s0) :
    s0.windup_ratio_ = cfg.windup_ratio ∧ s0.started_ = m.started_ ∧
    s0.prev_simulated_time_ = m.prev_simulated_time_ ∧ s0.lap_ = m.lap_ ∧
    s0.motion_selector_ = 0 ∧ s0.pubreference_type_ = cfg.reference_type ∧
    s0.trajectory_type_ = cfg.trajectory_type ∧
    s0.motionPrimitives_.length =
      (if cfg.trajectory_type = 0 then cfg.number_of_primitives.toNat else 1) ∧
    InputsCover s0 := by
  unfold trajectoryPublisher at h
  by_cases hn : cfg.number_of_primitives < 0
  · simp [hn] at h
  · simp only [hn, if_false] at h
    obtain ⟨ps, hlen, hs0⟩ := initializePrimitives_of_some ops _ _ _ h
    subst hs0
    have hlen2 : ps.length =
        (if cfg.trajectory_type = 0 then cfg.number_of_primitives.toNat else 1) := by
      rw [hlen]
      by_cases ht : cfg.trajectory_type = 0 <;> simp [ht]
    refine ⟨rfl, rfl, rfl, rfl, rfl, rfl, rfl, hlen2, ?_⟩
    intro ht
    have ht2 : cfg.trajectory_type = 0 := ht
    simp only [hlen2, ht2, if_true]
    by_cases h7 : cfg.number_of_primitives = 7
    · simp [h7, unitInputs]
    · simp [h7]

/-- The constructor completes when the configured number of primitives is not
negative. -/
theorem trajectoryPublisher_some {P : Type} (ops : PrimitiveOps P) (m : Members)
    (cfg : Config) (now : Int) (hn : 0 ≤ cfg.number_of_primitives) :
    ∃ s0, trajectoryPublisher ops m cfg now = some s0 := by
  unfold trajectoryPublisher
  have hn2 : ¬ cfg.number_of_primitives < 0 := by omega
  simp only [hn2, if_false]
  have := initializePrimitives_some ops
    ({ prev_time_ := now
       curr_time_ := m.curr_time_
       start_time_ := m.start_time_
       prev_simulated_time_ := m.prev_simulated_time_
       trigger_time_ := m.trigger_time_
       started_ := m.started_
       lap_ := m.lap_
       windup_ratio_ := cfg.windup_ratio
       velocity_scaler_ := cfg.velocity_scaler
       init_pos_x_ := cfg.initpos_x
       init_pos_y_ := cfg.initpos_y
       init_pos_z_ := cfg.initpos_z
       controlUpdate_dt_ := cfg.updaterate
       primitive_duration_ := cfg.horizon
       max_jerk_ := cfg.maxjerk
       shape_omega_ := cfg.shape_omega
       shape_radius_ := cfg.shape_radius
       shape_origin_ := ⟨cfg.initpos_x, cfg.initpos_y, cfg.initpos_z⟩
       shape_axis_ := ⟨0, 0, 1⟩
       trajectory_type_ := cfg.trajectory_type
       num_primitives_ := if cfg.trajectory_type = 0 then cfg.number_of_primitives else 1
       pubreference_type_ := cfg.reference_type
       motion_selector_ := 0
       inputs_ :=
         if cfg.trajectory_type = 0 then
           (if cfg.number_of_primitives = 7 then unitInputs
            else (List.range cfg.number_of_primitives.toNat).map m.uninit).map
             fun u => u.scale cfg.maxjerk
         else (List.range cfg.number_of_primitives.toNat).map m.uninit
       motionPrimitives_ :=
         if cfg.trajectory_type = 0 then
           List.replicate cfg.number_of_primitives.toNat ops.polynomialtrajectory
         else [ops.shapetrajectory cfg.trajectory_type]
       p_targ := ⟨cfg.initpos_x, cfg.initpos_y, cfg.initpos_z⟩
       v_targ := ⟨0, 0, 0⟩
       a_targ := m.a_targ
       p_mav_ := m.p_mav_
       v_mav_ := m.v_mav_ } : State P) cfg.trajectory_type (by
      intro ht
      by_cases h7 : cfg.number_of_primitives = 7
      · simp [ht, h7, unitInputs]
      · simp [ht, h7])
  obtain ⟨ps, _, hps⟩ := this
  exact ⟨_, hps⟩

/-! ## Concrete objects -/

theorem defaultState_constructed :
    trajectoryPublisher (specOps pointCurve) Members.zeroed Config.default 0
      = some defaultState := by
  simp [trajectoryPublisher, Config.default, initializePrimitives, generateFrom, unitInputs,
    Vec3.scale, Vec3.zero, Members.zeroed, specOps, defaultState]

theorem defaultState_valid : ValidSelection defaultState := by
  simp [ValidSelection, defaultState]

theorem defaultState_cover : InputsCover defaultState := by
  simp [InputsCover, defaultState]

theorem rampingState_valid : ValidSelection rampingState := by
  simp [ValidSelection, rampingState, defaultState]

theorem rampingState_cover : InputsCover rampingState := by
  simp [InputsCover, rampingState, defaultState]

theorem lateRampState_constructed :
    trajectoryPublisher (specOps pointCurve) Members.zeroed lateRampConfig 0
      = some lateRampState := by
  simp [trajectoryPublisher, lateRampConfig, Config.default, initializePrimitives, generateFrom,
    unitInputs, Vec3.scale, Vec3.zero, Members.zeroed, specOps, defaultState, lateRampState]

theorem lapState_constructed :
    trajectoryPublisher (specOps pointCurve) Members.zeroed lapConfig 0 = some lapState := by
  simp [trajectoryPublisher, lapConfig, Config.default, initializePrimitives, generateFrom,
    unitInputs, Vec3.scale, Vec3.zero, Members.zeroed, specOps, defaultState, lapState]

theorem fullSpeedState_constructed :
    trajectoryPublisher (specOps pointCurve) Members.zeroed fullSpeedConfig 0
      = some fullSpeedState := by
  simp [trajectoryPublisher, fullSpeedConfig, Config.default, initializePrimitives,
    generateFrom, unitInputs, Vec3.scale, Vec3.zero, Members.zeroed, specOps, defaultState,
    fullSpeedState]

theorem shapeState_constructed (r : Int) :
    trajectoryPublisher (specOps arcCurve) Members.zeroed (shapeConfig r) 0
      = some (shapeState r) := by
  have h7 : (7 : Int).toNat = 7 := rfl
  simp [trajectoryPublisher, shapeConfig, Config.default, initializePrimitives,
    Vec3.zero, Members.zeroed, specOps, defaultState, shapeState, h7, List.range_succ,
    List.replicate]

/-- C8. For the polynomial family with seven primitives and every `max_jerk` value `j`,
the constructor completes, `inputs_` holds, in index order, `(0,0,0)`, `(j,0,0)`,
`(-j,0,0)`, `(0,j,0)`, `(0,-j,0)`, `(0,0,j)`, `(0,0,-j)`, and there are exactly seven
primitives, the `i`-th one generated with the `i`-th jerk input. -/
theorem trajectoryPublisher_seven_inputs {P : Type} (ops : PrimitiveOps P) (m : Members)
    (cfg : Config) (now : Int) (ht : cfg.trajectory_type = 0)
    (hn : cfg.number_of_primitives = 7) :
    ∃ s0, trajectoryPublisher ops m cfg now = some s0 ∧
      s0.inputs_ =
        [⟨0, 0, 0⟩, ⟨cfg.maxjerk, 0, 0⟩, ⟨-cfg.maxjerk, 0, 0⟩, ⟨0, cfg.maxjerk, 0⟩,
         ⟨0, -cfg.maxjerk, 0⟩, ⟨0, 0, cfg.maxjerk⟩, ⟨0, 0, -cfg.maxjerk⟩] ∧
      s0.motionPrimitives_.length = 7 ∧
      s0.motionPrimitives_ = s0.inputs_.map
        (fun u => ops.generatePrimitives3 ops.polynomialtrajectory m.p_mav_ m.v_mav_ u) := by
  have h7 : (7 : Int).toNat = 7 := rfl
  simp [trajectoryPublisher, ht, hn, h7, initializePrimitives, generateFrom, unitInputs,
    Vec3.scale, List.replicate]

/-- C8, at the default parameters (`max_jerk` 10): index 5 is the jerk input
`(0,0,10)`. -/
theorem trajectoryPublisher_seven_inputs_witness :
    Config.default.trajectory_type = 0 ∧ Config.default.number_of_primitives = 7 ∧
    ∃ s0, trajectoryPublisher (specOps pointCurve) Members.zeroed Config.default 0 = some s0 ∧
      s0.inputs_[5]? = some ⟨0, 0, 10⟩ ∧ s0.inputs_[0]? = some ⟨0, 0, 0⟩ ∧
      s0.motionPrimitives_.length = 7 := by
  refine ⟨rfl, rfl, ?_⟩
  obtain ⟨s0, h0, hin, hlen, _⟩ :=
    trajectoryPublisher_seven_inputs (specOps pointCurve) Members.zeroed Config.default 0 rfl rfl
  exact ⟨s0, h0, by simp [hin, Config.default], by simp [hin], hlen⟩

/-! ## The fast tick -/

/-- C5 (amended). On every fast tick at wall-clock time `now` that completes,
`prev_time_` becomes `now`; when `started_` is false the simulated time is unchanged;
when it is true the new simulated time is the old one plus the scaled delta `td`, the
`ros::Duration` built from `(now - prev_time_) × windup_ratio_ × velocity_scaler_`
(with `windup_ratio_` as it was when the tick began): a whole number of nanoseconds
within half a nanosecond of that product.  When that duration cannot be built (its
seconds leave the 32-bit range) the tick throws and writes nothing, `prev_time_`
included.  The tick completes whenever the duration arithmetic succeeds and the
selected index is in range. -/
theorem updateReference_simulated_time {P : Type} (ops : PrimitiveOps P) (s : State P)
    (now : Int) :
    (∀ s1, updateReference ops s now = some s1 →
      s1.prev_time_ = now ∧
      ∃ td, scaledDelta (s.windup_ratio_ * s.velocity_scaler_) s.prev_time_ now = some td ∧
        |Duration.toSec td
          - Duration.toSec (now - s.prev_time_) * s.windup_ratio_ * s.velocity_scaler_|
            ≤ 1 / 2000000000 ∧
        (s.started_ = false → s1.prev_simulated_time_ = s.prev_simulated_time_) ∧
        (s.started_ = true → s1.prev_simulated_time_ = s.prev_simulated_time_ + td)) ∧
    (scaledDelta (s.windup_ratio_ * s.velocity_scaler_) s.prev_time_ now = none →
      updateReference ops s now = none) ∧
    (ValidSelection s → InputsCover s → (∃ sim, tickClock s now = some sim) →
      ∃ s1, updateReference ops s now = some s1) := by
  refine ⟨?_, ?_, ?_⟩
  · intro s1 h
    obtain ⟨sim, ps, q, hc, _, _, _, hs1⟩ := updateReference_of_some ops s s1 now h
    obtain ⟨td, htd, hidle, hrun⟩ := tickClock_of_some s now sim hc
    subst hs1
    refine ⟨rfl, td, htd, ?_, hidle, hrun⟩
    have := scaledDelta_error _ _ _ _ htd
    rw [← mul_assoc] at this
    exact this
  · intro hnone
    apply updateReference_overflow
    simp [tickClock, hnone]
  · intro hsel hin hclock
    obtain ⟨sim, hc⟩ := hclock
    obtain ⟨ps, q, _, _, _, h⟩ := updateReference_some ops s now sim hsel hin hc
    exact ⟨_, h⟩

/-- C5 (amended), on the triggered default object half-way up the ramp, ticked
10.000001 ms after the previous tick: the scaled delta is 10500001 ns (the product is
10500001.05 ns), the tick completes and the simulated time becomes 10500001 ns. -/
theorem updateReference_simulated_time_witness :
    ValidSelection rampingState ∧ InputsCover rampingState ∧ rampingState.started_ = true ∧
    tickClock rampingState 10000001 = some 10500001 ∧
    ∃ s1, updateReference (specOps pointCurve) rampingState 10000001 = some s1 ∧
      s1.prev_time_ = 10000001 ∧ s1.prev_simulated_time_ = 10500001 := by
  have hd : scaledDelta (rampingState.windup_ratio_ * rampingState.velocity_scaler_)
      rampingState.prev_time_ 10000001 = some 10500001 := by
    norm_num [scaledDelta, Duration.fromNSec, Duration.fromSec, Duration.toSec, INT32_MIN,
      INT32_MAX, NSEC, rampingState, defaultState]
  have hc : tickClock rampingState 10000001 = some 10500001 := by
    rw [tickClock, hd]
    norm_num [accumulate, Duration.fromNSec, INT32_MIN, INT32_MAX, NSEC, rampingState,
      defaultState]
  have h := updateReference_simulated_time (specOps pointCurve) rampingState 10000001
  obtain ⟨s1, hs1⟩ := h.2.2 rampingState_valid rampingState_cover ⟨_, hc⟩
  obtain ⟨h1, td, htd, _, _, h3⟩ := h.1 s1 hs1
  rw [hd] at htd
  have htd2 : td = 10500001 := (Option.some.inj htd).symm
  refine ⟨rampingState_valid, rampingState_cover, rfl, hc, s1, hs1, h1, ?_⟩
  rw [h3 rfl, htd2]
  norm_num [rampingState, defaultState]

/-- C5, counterexample. Default parameters with a configured windup ratio of 1
(velocity scaler 2.1), trigger at wall-clock time 0.  A fast tick 10.000001 ms later
brings the simulated time to 21000002 ns, not to the product 0.010000001 × 1 × 2.1 =
0.0210000021 s; a fast tick 1.5e9 s later throws (the scaled delta of 3.15e9 s does
not fit the 32-bit seconds of a duration), so no previous-tick time is written. -/
theorem updateReference_simulated_time_counterexample :
    ∃ s0, trajectoryPublisher (specOps pointCurve) Members.zeroed fullSpeedConfig 0 = some s0 ∧
      (∃ s1, run (specOps pointCurve) s0 [.trigger true 0, .refTick 10000001] = some s1 ∧
        s1.prev_simulated_time_ = 21000002 ∧
        Duration.toSec s0.prev_simulated_time_
          + Duration.toSec (10000001 - 0) * s0.windup_ratio_ * s0.velocity_scaler_
            = 210000021 / 10000000000 ∧
        Duration.toSec s1.prev_simulated_time_ ≠
          Duration.toSec s0.prev_simulated_time_
            + Duration.toSec (10000001 - 0) * s0.windup_ratio_ * s0.velocity_scaler_) ∧
      run (specOps pointCurve) s0 [.trigger true 0, .refTick 1500000000000000000] = none := by
  refine ⟨fullSpeedState, fullSpeedState_constructed, ?_, ?_⟩
  · norm_num [run, step, triggerCallback, updateReference, advanceClock, evaluateTarget,
      accumulate, scaledDelta, Duration.fromNSec, Duration.fromSec, Duration.toSec, INT32_MIN,
      INT32_MAX, NSEC, fullSpeedState, defaultState, at?, specOps, Vec3.scale, Vec3.add]
  · norm_num [run, step, triggerCallback, updateReference, advanceClock,
      scaledDelta, Duration.fromNSec, Duration.fromSec, Duration.toSec, INT32_MIN,
      INT32_MAX, NSEC, fullSpeedState, defaultState]

/-- C2 (amended). On every fast tick that completes, the stored position is the
selected primitive's position at the new simulated time, the stored velocity is the
new windup ratio times its velocity there, and, when the reference type is not 0, the
stored acceleration is the new windup ratio times its acceleration there.  When the
reference type is 0 the primitive's acceleration is not read: the stored acceleration
is the new windup ratio times the acceleration stored before the tick.  The tick
completes whenever the duration arithmetic succeeds and the selected index is in
range. -/
theorem updateReference_target {P : Type} (ops : PrimitiveOps P) (s : State P) (now : Int) :
    (∀ s1, updateReference ops s now = some s1 →
      ∃ q, at? s1.motionPrimitives_ s1.motion_selector_ = some q ∧
        s1.p_targ = ops.getPosition q (Duration.toSec s1.prev_simulated_time_) ∧
        s1.v_targ = (ops.getVelocity q (Duration.toSec s1.prev_simulated_time_)).scale
          s1.windup_ratio_ ∧
        (s.pubreference_type_ ≠ 0 → s1.a_targ =
          (ops.getAcceleration q (Duration.toSec s1.prev_simulated_time_)).scale
            s1.windup_ratio_) ∧
        (s.pubreference_type_ = 0 → s1.a_targ = s.a_targ.scale s1.windup_ratio_)) ∧
    (ValidSelection s → InputsCover s → (∃ sim, tickClock s now = some sim) →
      ∃ s1, updateReference ops s now = some s1) := by
  constructor
  · intro s1 h
    obtain ⟨sim, ps, q, _, _, _, hq, hs1⟩ := updateReference_of_some ops s s1 now h
    subst hs1
    refine ⟨q, hq, rfl, rfl, ?_, ?_⟩
    · intro hr
      simp [hr]
    · intro hr
      simp [hr]
  · intro hsel hin hclock
    obtain ⟨sim, hc⟩ := hclock
    obtain ⟨ps, q, _, _, _, h⟩ := updateReference_some ops s now sim hsel hin hc
    exact ⟨_, h⟩

/-- C2 (amended), on the triggered default object half-way up the ramp, ticked 10 ms
after the previous tick. -/
theorem updateReference_target_witness :
    ValidSelection rampingState ∧ InputsCover rampingState ∧
    tickClock rampingState 10000000 = some 10500000 ∧
    rampingState.pubreference_type_ ≠ 0 ∧
    ∃ s1 q, updateReference (specOps pointCurve) rampingState 10000000 = some s1 ∧
      at? s1.motionPrimitives_ s1.motion_selector_ = some q ∧
      s1.p_targ = (specOps pointCurve).getPosition q (Duration.toSec s1.prev_simulated_time_) ∧
      s1.v_targ =
        ((specOps pointCurve).getVelocity q (Duration.toSec s1.prev_simulated_time_)).scale
          s1.windup_ratio_ ∧
      s1.a_targ =
        ((specOps pointCurve).getAcceleration q (Duration.toSec s1.prev_simulated_time_)).scale
          s1.windup_ratio_ := by
  have hc : tickClock rampingState 10000000 = some 10500000 := by
    norm_num [tickClock, accumulate, scaledDelta, Duration.fromNSec, Duration.fromSec,
      Duration.toSec, INT32_MIN, INT32_MAX, NSEC, rampingState, defaultState]
  have h := updateReference_target (specOps pointCurve) rampingState 10000000
  obtain ⟨s1, hs1⟩ := h.2 rampingState_valid rampingState_cover ⟨_, hc⟩
  obtain ⟨q, hq, hp, hv, ha, _⟩ := h.1 s1 hs1
  have hr : rampingState.pubreference_type_ ≠ 0 := by
    simp [rampingState, defaultState]
  exact ⟨rampingState_valid, rampingState_cover, hc, hr, s1, q, hs1, hq, hp, hv, ha hr⟩

/-- C2, counterexample. The default object with reference type 0, triggered,
half-way up the ramp and with the `+z` jerk primitive selected, ticked 10 ms after
the previous tick: the tick leaves the stored acceleration at `(0,0,0)`, while the new
windup ratio times the selected primitive's acceleration at the new simulated time is
`(0,0,10521/200000)`. -/
theorem updateReference_target_counterexample :
    ∃ s1 q, updateReference (specOps pointCurve)
        { rampingState with pubreference_type_ := 0 } 10000000 = some s1 ∧
      at? s1.motionPrimitives_ s1.motion_selector_ = some q ∧
      s1.a_targ = ⟨0, 0, 0⟩ ∧
      ((specOps pointCurve).getAcceleration q (Duration.toSec s1.prev_simulated_time_)).scale
        s1.windup_ratio_ = ⟨0, 0, 10521 / 200000⟩ ∧
      s1.a_targ ≠
        ((specOps pointCurve).getAcceleration q (Duration.toSec s1.prev_simulated_time_)).scale
          s1.windup_ratio_ := by
  have h5 : (5 : Int).toNat = 5 := rfl
  norm_num [updateReference, advanceClock, evaluateTarget, accumulate, scaledDelta,
    Duration.fromNSec, Duration.fromSec, Duration.toSec, INT32_MIN, INT32_MAX, NSEC,
    rampingState, defaultState, at?, initializePrimitives, generateFrom, specOps, Vec3.scale,
    Vec3.add, h5]

/-! ## The callbacks -/

/-- C6. For every state and every mode flag, `triggerCallback` sets `started_`, answers
`success = true` with the message "trajectory triggered" and returns true; simulated
time, windup ratio, lap counter, selected index and the target are left as they
were: the only members written are `started_` and `start_time_`. -/
theorem triggerCallback_frame {P : Type} (s : State P) (mode : Bool) (now : Int) :
    (triggerCallback s mode now).1.started_ = true ∧
    (triggerCallback s mode now).2.1.success = true ∧
    (triggerCallback s mode now).2.1.message = "trajectory triggered" ∧
    (triggerCallback s mode now).2.2 = true ∧
    (triggerCallback s mode now).1.prev_simulated_time_ = s.prev_simulated_time_ ∧
    (triggerCallback s mode now).1.windup_ratio_ = s.windup_ratio_ ∧
    (triggerCallback s mode now).1.lap_ = s.lap_ ∧
    (triggerCallback s mode now).1.motion_selector_ = s.motion_selector_ ∧
    (triggerCallback s mode now).1.p_targ = s.p_targ ∧
    (triggerCallback s mode now).1.v_targ = s.v_targ ∧
    (triggerCallback s mode now).1.a_targ = s.a_targ ∧
    (triggerCallback s mode now).1 = { s with start_time_ := now, started_ := true } :=
  ⟨rfl, rfl, rfl, rfl, rfl, rfl, rfl, rfl, rfl, rfl, rfl, rfl⟩

/-- C9. For every state and every selector message, `motionselectorCallback` leaves
simulated time, `started_`, windup ratio and lap counter as they were: it writes only
the selected index, `start_time_` and the regenerated primitives.  When the new index
is in range, the next fast tick that completes stores the position, the damped
velocity and (for a reference type other than 0) the damped acceleration of the newly
selected primitive at the accumulated simulated time: the simulated time carried over
the selection, plus this tick's scaled delta when the object is started.  That tick
completes whenever its duration arithmetic succeeds. -/
theorem motionselectorCallback_frame {P : Type} (ops : PrimitiveOps P) (s : State P)
    (data : Int) (now : Int) :
    (motionselectorCallback ops s data now).prev_simulated_time_ = s.prev_simulated_time_ ∧
    (motionselectorCallback ops s data now).started_ = s.started_ ∧
    (motionselectorCallback ops s data now).windup_ratio_ = s.windup_ratio_ ∧
    (motionselectorCallback ops s data now).lap_ = s.lap_ ∧
    motionselectorCallback ops s data now =
      { s with motion_selector_ := data, start_time_ := now,
               motionPrimitives_ := s.motionPrimitives_.map fun q =>
                 ops.generatePrimitives2 q s.p_mav_ s.v_mav_ } ∧
    (∀ (now1 : Int) (s2 : State P),
      updateReference ops (motionselectorCallback ops s data now) now1 = some s2 →
        ∃ q td, at? s2.motionPrimitives_ data = some q ∧
          s2.p_targ = ops.getPosition q (Duration.toSec s2.prev_simulated_time_) ∧
          s2.v_targ = (ops.getVelocity q (Duration.toSec s2.prev_simulated_time_)).scale
            s2.windup_ratio_ ∧
          (s.pubreference_type_ ≠ 0 → s2.a_targ =
            (ops.getAcceleration q (Duration.toSec s2.prev_simulated_time_)).scale
              s2.windup_ratio_) ∧
          scaledDelta (s.windup_ratio_ * s.velocity_scaler_) s.prev_time_ now1 = some td ∧
          s2.prev_simulated_time_ =
            (if s.started_ then s.prev_simulated_time_ + td else s.prev_simulated_time_)) ∧
    (0 ≤ data → data < s.motionPrimitives_.length → InputsCover s →
      ∀ now1 : Int, (∃ sim, tickClock s now1 = some sim) →
        ∃ s2, updateReference ops (motionselectorCallback ops s data now) now1 = some s2) := by
  refine ⟨rfl, rfl, rfl, rfl, rfl, ?_, ?_⟩
  · intro now1 s2 h
    obtain ⟨sim, ps, q, hc, _, _, hq, hs2⟩ := updateReference_of_some ops _ s2 now1 h
    obtain ⟨td, htd, hidle, hrun⟩ := tickClock_of_some _ now1 sim hc
    subst hs2
    refine ⟨q, td, hq, rfl, rfl, ?_, htd, ?_⟩
    · intro hr
      have hr2 : (motionselectorCallback ops s data now).pubreference_type_ ≠ 0 := hr
      simp [hr2]
    · show sim = _
      by_cases hs : s.started_ = true
      · rw [hrun hs]
        simp [hs, motionselectorCallback, updatePrimitives]
      · have hs2 : s.started_ = false := by simpa using hs
        rw [hidle hs2]
        simp [hs2, motionselectorCallback, updatePrimitives]
  · intro h0 h1 hin now1 hclock
    obtain ⟨sim, hc⟩ := hclock
    have hsel : ValidSelection (motionselectorCallback ops s data now) := by
      refine ⟨h0, ?_⟩
      show data < ((s.motionPrimitives_.map fun q =>
        ops.generatePrimitives2 q s.p_mav_ s.v_mav_).length : Int)
      simpa using h1
    have hcov : InputsCover (motionselectorCallback ops s data now) := by
      intro ht
      show (s.motionPrimitives_.map fun q =>
        ops.generatePrimitives2 q s.p_mav_ s.v_mav_).length ≤ s.inputs_.length
      simpa using hin ht
    have hc2 : tickClock (motionselectorCallback ops s data now) now1 = some sim := hc
    obtain ⟨ps, q, _, _, _, h⟩ :=
      updateReference_some ops (motionselectorCallback ops s data now) now1 sim hsel hcov hc2
    exact ⟨_, h⟩

/-- C9, on the triggered default object: primitive 3 is selected at 5 ms, then a tick
at 10 ms completes and stores the position of primitive 3 at the simulated time
10500000 ns. -/
theorem motionselectorCallback_frame_witness :
    (0 : Int) ≤ 3 ∧ (3 : Int) < rampingState.motionPrimitives_.length ∧
    InputsCover rampingState ∧ tickClock rampingState 10000000 = some 10500000 ∧
    ∃ s2 q,
      updateReference (specOps pointCurve)
        (motionselectorCallback (specOps pointCurve) rampingState 3 5000000) 10000000
          = some s2 ∧
      at? s2.motionPrimitives_ 3 = some q ∧
      s2.p_targ = (specOps pointCurve).getPosition q (Duration.toSec s2.prev_simulated_time_) ∧
      s2.prev_simulated_time_ = 10500000 := by
  have hc : tickClock rampingState 10000000 = some 10500000 := by
    norm_num [tickClock, accumulate, scaledDelta, Duration.fromNSec, Duration.fromSec,
      Duration.toSec, INT32_MIN, INT32_MAX, NSEC, rampingState, defaultState]
  have hd : scaledDelta (rampingState.windup_ratio_ * rampingState.velocity_scaler_)
      rampingState.prev_time_ 10000000 = some 10500000 := by
    norm_num [scaledDelta, Duration.fromNSec, Duration.fromSec, Duration.toSec, INT32_MIN,
      INT32_MAX, NSEC, rampingState, defaultState]
  have h := motionselectorCallback_frame (specOps pointCurve) rampingState 3 5000000
  have hlt : (3 : Int) < rampingState.motionPrimitives_.length := by
    simp [rampingState, defaultState]
  obtain ⟨s2, hs2⟩ := h.2.2.2.2.2.2 (by decide) hlt rampingState_cover 10000000 ⟨_, hc⟩
  obtain ⟨q, td, hq, hp, _, _, htd, hsim⟩ := h.2.2.2.2.2.1 10000000 s2 hs2
  rw [hd] at htd
  have htd2 : td = 10500000 := (Option.some.inj htd).symm
  refine ⟨by decide, hlt, rampingState_cover, hc, s2, q, hs2, hq, hp, ?_⟩
  rw [hsim, htd2]
  norm_num [rampingState, defaultState]

/-! ## The windup ramp -/

theorem nextWindup_ge {P : Type} (s : State P) : s.windup_ratio_ ≤ nextWindup s := by
  unfold nextWindup
  split
  · linarith
  · exact le_refl _

theorem nextWindup_lt {P : Type} (s : State P) (h : s.windup_ratio_ < 1 + 1 / 1000) :
    nextWindup s < 1 + 1 / 1000 := by
  unfold nextWindup
  split
  · rename_i hc
    linarith [hc.2]
  · exact h

theorem updateReference_windup {P : Type} (ops : PrimitiveOps P) (s s1 : State P) (now : Int)
    (h : updateReference ops s now = some s1) : s1.windup_ratio_ = nextWindup s := by
  obtain ⟨sim, ps, q, _, _, _, _, hs1⟩ := updateReference_of_some ops s s1 now h
  rw [hs1]

theorem step_windup {P : Type} (ops : PrimitiveOps P) (s s1 : State P) (e : Event)
    (h : step ops s e = some s1) :
    s.windup_ratio_ ≤ s1.windup_ratio_ ∧
      (s.windup_ratio_ < 1 + 1 / 1000 → s1.windup_ratio_ < 1 + 1 / 1000) := by
  cases e with
  | refTick now =>
    have hw := updateReference_windup ops s s1 now h
    rw [hw]
    exact ⟨nextWindup_ge s, nextWindup_lt s⟩
  | loopTick =>
    simp only [step, loopCallback] at h
    cases hq : at? s.motionPrimitives_ s.motion_selector_ with
    | none => simp [hq] at h
    | some q =>
      simp only [hq, Option.some.injEq] at h
      subst h
      exact ⟨le_refl _, id⟩
  | trigger mode now =>
    simp only [step, Option.some.injEq] at h
    subst h
    exact ⟨le_refl _, id⟩
  | motionselector data now =>
    simp only [step, Option.some.injEq] at h
    subst h
    exact ⟨le_refl _, id⟩
  | mavpose pos =>
    simp only [step, Option.some.injEq] at h
    subst h
    exact ⟨le_refl _, id⟩
  | mavtwist vel =>
    simp only [step, Option.some.injEq] at h
    subst h
    exact ⟨le_refl _, id⟩
  | reconfigure k =>
    simp only [step, Option.some.injEq, dynamicReconfigureCallback] at h
    subst h
    split
    · exact ⟨le_refl _, id⟩
    · exact ⟨le_refl _, id⟩

theorem run_windup {P : Type} (ops : PrimitiveOps P) (evs : List Event) :
    ∀ (s s1 : State P), run ops s evs = some s1 →
      s.windup_ratio_ ≤ s1.windup_ratio_ ∧
        (s.windup_ratio_ < 1 + 1 / 1000 → s1.windup_ratio_ < 1 + 1 / 1000) := by
  induction evs with
  | nil =>
    intro s s1 h
    simp only [run, Option.some.injEq] at h
    subst h
    exact ⟨le_refl _, id⟩
  | cons e es ih =>
    intro s s1 h
    unfold run at h
    cases hst : step ops s e with
    | none => simp [hst] at h
    | some s2 =>
      simp only [hst] at h
      have h1 := step_windup ops s s2 e hst
      have h2 := ih s2 s1 h
      exact ⟨le_trans h1.1 h2.1, fun hlt => h2.2 (h1.2 hlt)⟩

/-- C1 (amended). For every configured initial windup ratio in `[0,1]`, in every state
reached from construction by any sequence of callbacks, the windup ratio lies between
the configured value and `1 + 0.001` (exclusive); a fast tick from there never lowers
it, adds exactly `0.001` when the object is started and the ratio is below 1, and
leaves it unchanged when the ratio is at least 1 or the object is not started. -/
theorem windup_ratio_ramp {P : Type} (ops : PrimitiveOps P) (m : Members) (cfg : Config)
    (now : Int) (evs : List Event) (s0 s : State P)
    (h0 : 0 ≤ cfg.windup_ratio) (h1 : cfg.windup_ratio ≤ 1)
    (hc : trajectoryPublisher ops m cfg now = some s0) (hr : run ops s0 evs = some s) :
    0 ≤ s.windup_ratio_ ∧ cfg.windup_ratio ≤ s.windup_ratio_ ∧
    s.windup_ratio_ < 1 + 1 / 1000 ∧
    ∀ (now1 : Int) (s1 : State P), updateReference ops s now1 = some s1 →
      s.windup_ratio_ ≤ s1.windup_ratio_ ∧ s1.windup_ratio_ < 1 + 1 / 1000 ∧
      (s.started_ = true → s.windup_ratio_ < 1 →
        s1.windup_ratio_ = s.windup_ratio_ + 1 / 1000) ∧
      (1 ≤ s.windup_ratio_ → s1.windup_ratio_ = s.windup_ratio_) ∧
      (s.started_ = false → s1.windup_ratio_ = s.windup_ratio_) := by
  have hw0 : s0.windup_ratio_ = cfg.windup_ratio :=
    (trajectoryPublisher_of_some ops m cfg now s0 hc).1
  have hrun := run_windup ops evs s0 s hr
  rw [hw0] at hrun
  have hlt : s.windup_ratio_ < 1 + 1 / 1000 := hrun.2 (by linarith)
  refine ⟨le_trans h0 hrun.1, hrun.1, hlt, ?_⟩
  intro now1 s1 hu
  have hw := updateReference_windup ops s s1 now1 hu
  rw [hw]
  refine ⟨nextWindup_ge s, nextWindup_lt s hlt, ?_, ?_, ?_⟩
  · intro hs hw1
    simp [nextWindup, hs, hw1]
  · intro hge
    have : ¬ s.windup_ratio_ < 1 := not_lt.mpr hge
    simp [nextWindup, this]
  · intro hs
    simp [nextWindup, hs]

/-- C1, counterexample. With a configured initial windup ratio of 0.9995, the first
fast tick after the trigger raises the windup ratio to 1.0005, above 1. -/
theorem windup_ratio_counterexample :
    (0 : ℚ) ≤ lateRampConfig.windup_ratio ∧ lateRampConfig.windup_ratio ≤ 1 ∧
    ∃ s0,
      trajectoryPublisher (specOps pointCurve) Members.zeroed lateRampConfig 0 = some s0 ∧
      ∃ s1, run (specOps pointCurve) s0 [.trigger true 0, .refTick 10000000] = some s1 ∧
        s1.windup_ratio_ = 2001 / 2000 ∧ 1 < s1.windup_ratio_ := by
  refine ⟨by norm_num [lateRampConfig, Config.default],
    by norm_num [lateRampConfig, Config.default], lateRampState, lateRampState_constructed, ?_⟩
  norm_num [run, step, triggerCallback, updateReference, advanceClock, evaluateTarget,
    accumulate, scaledDelta, Duration.fromNSec, Duration.fromSec, Duration.toSec, INT32_MIN,
    INT32_MAX, NSEC, lateRampState, defaultState, at?, initializePrimitives, generateFrom,
    specOps, Vec3.scale, Vec3.add]

/-- C1 (amended), on the object configured with windup ratio 0.9995, after the trigger
and one fast tick. -/
theorem windup_ratio_ramp_witness :
    (0 : ℚ) ≤ lateRampConfig.windup_ratio ∧ lateRampConfig.windup_ratio ≤ 1 ∧
    trajectoryPublisher (specOps pointCurve) Members.zeroed lateRampConfig 0
      = some lateRampState ∧
    ∃ s, run (specOps pointCurve) lateRampState [.trigger true 0, .refTick 10000000]
        = some s ∧
      s.windup_ratio_ < 1 + 1 / 1000 := by
  have h0 : (0 : ℚ) ≤ lateRampConfig.windup_ratio := by
    norm_num [lateRampConfig, Config.default]
  have h1 : lateRampConfig.windup_ratio ≤ 1 := by
    norm_num [lateRampConfig, Config.default]
  have hr : ∃ s, run (specOps pointCurve) lateRampState
      [.trigger true 0, .refTick 10000000] = some s := by
    norm_num [run, step, triggerCallback, updateReference, advanceClock, evaluateTarget,
      accumulate, scaledDelta, Duration.fromNSec, Duration.fromSec, Duration.toSec, INT32_MIN,
      INT32_MAX, NSEC, lateRampState, defaultState, at?, initializePrimitives, generateFrom,
      specOps, Vec3.scale, Vec3.add]
  obtain ⟨s, hs⟩ := hr
  exact ⟨h0, h1, lateRampState_constructed, s, hs,
    (windup_ratio_ramp (specOps pointCurve) Members.zeroed lateRampConfig 0 _ lateRampState s
      h0 h1 lateRampState_constructed hs).2.2.1⟩

/-! ## Ticks before the trigger -/

theorem Vec3.scale_zero (v : Vec3) : v.scale 0 = ⟨0, 0, 0⟩ := by
  simp [Vec3.scale]

theorem Duration.toSec_zero : Duration.toSec 0 = 0 := by
  simp [Duration.toSec]

/-- A completed tick of an idle object leaves it idle and stores the target of time 0. -/
theorem idle_tick_of_some {P : Type} (ops : PrimitiveOps P) (w vs : ℚ) (prims : List P)
    (r : Int) (q : P) (s s1 : State P) (now : Int) (hi : IdleAt w vs prims r s)
    (hq : at? prims 0 = some q) (h : updateReference ops s now = some s1) :
    IdleAt w vs prims r s1 ∧ IdleTarget ops w q r s1 ∧ s1.prev_time_ = now ∧
      s1.trigger_time_ = 0 ∧ s1.inputs_ = s.inputs_ ∧
      s1.trajectory_type_ = s.trajectory_type_ := by
  obtain ⟨hst, hsim, hlap, hw, hvs, hsel, hprims, hr⟩ := hi
  obtain ⟨sim, ps, q1, hc, _, hsame, hq1, hs1⟩ := updateReference_of_some ops s s1 now h
  obtain ⟨td, _, hidle, _⟩ := tickClock_of_some s now sim hc
  have hsim0 : sim = 0 := by rw [hidle hst, hsim]
  subst hsim0
  have hps : ps = s.motionPrimitives_ := hsame (by simp [hst])
  subst hps
  have hqq : q1 = q := by
    rw [hprims, hsel, hq] at hq1
    exact (Option.some.inj hq1).symm
  subst hqq
  have hlap1 : nextLap s 0 = 0 := by
    simp only [nextLap, Duration.toSec_zero, hlap]
    norm_num
  have hw1 : nextWindup s = w := by simp [nextWindup, hst, hw]
  rw [hlap1, hw1, Duration.toSec_zero] at hs1
  subst hs1
  refine ⟨⟨hst, rfl, rfl, rfl, hvs, hsel, hprims, hr⟩, ⟨rfl, rfl, ?_, ?_⟩, rfl, rfl, rfl, rfl⟩
  · intro hr0
    have : s.pubreference_type_ ≠ 0 := by rw [hr]; exact hr0
    simp [this]
  · intro hw0
    subst hw0
    refine ⟨Vec3.scale_zero _, fun _ => Vec3.scale_zero _⟩

/-- A tick of an idle object completes when its scaled delta can be built. -/
theorem idle_tick_some {P : Type} (ops : PrimitiveOps P) (w vs : ℚ) (prims : List P)
    (r : Int) (q : P) (s : State P) (now td : Int) (hi : IdleAt w vs prims r s)
    (hin : InputsCover s) (hq : at? prims 0 = some q)
    (hd : scaledDelta (w * vs) s.prev_time_ now = some td) :
    ∃ s1, updateReference ops s now = some s1 := by
  obtain ⟨hst, _, _, hw, hvs, hsel, hprims, _⟩ := hi
  have hvalid : ValidSelection s := by
    rw [← hprims, ← hsel] at hq
    exact at?_valid _ _ q hq
  rw [← hw, ← hvs] at hd
  have hc := tickClock_idle s now td hst hd
  obtain ⟨ps, q1, _, _, _, h⟩ := updateReference_some ops s now _ hvalid hin hc
  exact ⟨_, h⟩

theorem idle_runTicks_of_some {P : Type} (ops : PrimitiveOps P) (w vs : ℚ) (prims : List P)
    (r : Int) (q : P) (hq : at? prims 0 = some q) (ticks : List Int) :
    ∀ s s1 : State P, IdleAt w vs prims r s → runTicks ops s ticks = some s1 →
      IdleAt w vs prims r s1 ∧
        (IdleTarget ops w q r s ∧ s.trigger_time_ = 0 ∨ ticks ≠ [] →
          IdleTarget ops w q r s1 ∧ s1.trigger_time_ = 0) := by
  induction ticks with
  | nil =>
    intro s s1 hi h
    simp only [runTicks, Option.some.injEq] at h
    subst h
    refine ⟨hi, ?_⟩
    intro h
    cases h with
    | inl h => exact h
    | inr h => exact absurd rfl h
  | cons now rest ih =>
    intro s s1 hi h
    unfold runTicks at h
    cases hu : updateReference ops s now with
    | none => simp [hu] at h
    | some s2 =>
      simp only [hu] at h
      obtain ⟨hi2, ht2, _, htr2, _, _⟩ := idle_tick_of_some ops w vs prims r q s s2 now hi hq hu
      obtain ⟨hi1, ht1⟩ := ih s2 s1 hi2 h
      exact ⟨hi1, fun _ => ht1 (Or.inl ⟨ht2, htr2⟩)⟩

theorem idle_runTicks_some {P : Type} (ops : PrimitiveOps P) (w vs : ℚ) (prims : List P)
    (r : Int) (q : P) (hq : at? prims 0 = some q) (ticks : List Int) :
    ∀ s : State P, IdleAt w vs prims r s → InputsCover s →
      ticksInRange (w * vs) s.prev_time_ ticks → ∃ s1, runTicks ops s ticks = some s1 := by
  induction ticks with
  | nil => intro s _ _ _; exact ⟨s, rfl⟩
  | cons now rest ih =>
    intro s hi hin hrange
    obtain ⟨⟨td, hd⟩, hrest⟩ := hrange
    obtain ⟨s2, hu⟩ := idle_tick_some ops w vs prims r q s now td hi hin hq hd
    obtain ⟨hi2, _, hprev, _, hinp, hty⟩ := idle_tick_of_some ops w vs prims r q s s2 now hi hq hu
    have hin2 : InputsCover s2 := by
      intro h0
      rw [hi2.2.2.2.2.2.2.1, hinp, ← hi.2.2.2.2.2.2.1]
      exact hin (by rw [← hty]; exact h0)
    rw [← hprev] at hrest
    obtain ⟨s1, h1⟩ := ih s2 hi2 hin2 hrest
    exact ⟨s1, by simp only [runTicks, hu, h1]⟩

/-- C10 (amended). Let the object be constructed not started, with simulated time 0
and lap 0.  In every state reached from construction by fast ticks alone, `started_`
is false, simulated time and lap counter are 0, the windup ratio is the configured
one, and the selection and the primitives are those of construction.  After at least
one tick the stored position is the selected primitive's position at time 0, the
stored velocity is its velocity at time 0 times the configured windup ratio, and,
when the reference type is not 0, the stored acceleration is its acceleration at time
0 times the configured windup ratio; so with a configured windup ratio of 0 the stored
velocity is zero and, when the reference type is not 0, so is the stored acceleration
(the primitive's values are rationals, hence finite).
With reference type 0 the primitive's acceleration is not stored.  Such a sequence of
ticks completes whenever there is at least one primitive and the duration arithmetic
of each tick succeeds. -/
theorem idle_ticks {P : Type} (ops : PrimitiveOps P) (m : Members) (cfg : Config) (now : Int)
    (ticks : List Int) (s0 : State P) (hs : m.started_ = false)
    (ht : m.prev_simulated_time_ = 0) (hl : m.lap_ = 0)
    (hc : trajectoryPublisher ops m cfg now = some s0) :
    (∀ s, runTicks ops s0 ticks = some s →
      s.started_ = false ∧ s.prev_simulated_time_ = 0 ∧ s.lap_ = 0 ∧
      s.windup_ratio_ = cfg.windup_ratio ∧ s.motion_selector_ = 0 ∧
      s.motionPrimitives_ = s0.motionPrimitives_ ∧
      (ticks ≠ [] → ∃ q, at? s0.motionPrimitives_ 0 = some q ∧
        s.trigger_time_ = 0 ∧
        s.p_targ = ops.getPosition q 0 ∧
        s.v_targ = (ops.getVelocity q 0).scale cfg.windup_ratio ∧
        (cfg.reference_type ≠ 0 →
          s.a_targ = (ops.getAcceleration q 0).scale cfg.windup_ratio) ∧
        (cfg.windup_ratio = 0 →
          s.v_targ = ⟨0, 0, 0⟩ ∧ (cfg.reference_type ≠ 0 → s.a_targ = ⟨0, 0, 0⟩)))) ∧
    (0 < s0.motionPrimitives_.length →
      ticksInRange (cfg.windup_ratio * cfg.velocity_scaler) now ticks →
      ∃ s, runTicks ops s0 ticks = some s) := by
  obtain ⟨hw, hst, hsim, hlap, hsel, hr, _, hlen, hin⟩ :=
    trajectoryPublisher_of_some ops m cfg now s0 hc
  have hvs : s0.velocity_scaler_ = cfg.velocity_scaler ∧ s0.prev_time_ = now := by
    unfold trajectoryPublisher at hc
    by_cases hn : cfg.number_of_primitives < 0
    · simp [hn] at hc
    · simp only [hn, if_false] at hc
      obtain ⟨ps, _, hs0⟩ := initializePrimitives_of_some ops _ _ _ hc
      rw [hs0]
      exact ⟨rfl, rfl⟩
  have hi : IdleAt cfg.windup_ratio cfg.velocity_scaler s0.motionPrimitives_
      cfg.reference_type s0 :=
    ⟨by rw [hst, hs], by rw [hsim, ht], by rw [hlap, hl], hw, hvs.1, hsel, rfl, hr⟩
  constructor
  · intro s hrun
    by_cases hne : ticks = []
    · subst hne
      simp only [runTicks, Option.some.injEq] at hrun
      subst hrun
      obtain ⟨i1, i2, i3, i4, _, i5, _, _⟩ := hi
      exact ⟨i1, i2, i3, i4, i5, rfl, fun h => absurd rfl h⟩
    · have hq : ∃ q, at? s0.motionPrimitives_ 0 = some q := by
        cases ticks with
        | nil => exact absurd rfl hne
        | cons t rest =>
          unfold runTicks at hrun
          cases hu : updateReference ops s0 t with
          | none => simp [hu] at hrun
          | some s2 =>
            obtain ⟨sim, ps, q, _, hlen2, hsame, hq, _⟩ :=
              updateReference_of_some ops s0 s2 t hu
            have hps : ps = s0.motionPrimitives_ := hsame (by simp [hi.1])
            rw [hps, hsel] at hq
            exact ⟨q, hq⟩
      obtain ⟨q, hq⟩ := hq
      obtain ⟨hi1, htarg⟩ := idle_runTicks_of_some ops _ _ _ _ q hq ticks s0 s hi hrun
      obtain ⟨⟨t1, t2, t3, t4⟩, t0⟩ := htarg (Or.inr hne)
      obtain ⟨i1, i2, i3, i4, _, i5, i6, _⟩ := hi1
      exact ⟨i1, i2, i3, i4, i5, i6, fun _ => ⟨q, hq, t0, t1, t2, t3, t4⟩⟩
  · intro hpos hrange
    obtain ⟨q, hq⟩ := at?_some s0.motionPrimitives_ 0 (le_refl _) (by exact_mod_cast hpos)
    rw [← hvs.2] at hrange
    exact idle_runTicks_some ops _ _ _ _ q hq ticks s0 hi hin hrange

/-- C10 (amended), for the shape family with reference type 2 and a configured windup
ratio of 1/2, zeroed members and three ticks 10 ms apart: the run completes, the
object is still idle, and the target is the start of the curve with velocity and
acceleration halved. -/
theorem idle_ticks_witness :
    Members.zeroed.started_ = false ∧ Members.zeroed.prev_simulated_time_ = 0 ∧
    Members.zeroed.lap_ = 0 ∧
    trajectoryPublisher (specOps arcCurve) Members.zeroed (shapeConfig 2) 0
      = some (shapeState 2) ∧
    ∃ s, runTicks (specOps arcCurve) (shapeState 2) [10000000, 20000000, 30000000] = some s ∧
      s.started_ = false ∧ s.prev_simulated_time_ = 0 ∧ s.lap_ = 0 ∧
      s.windup_ratio_ = 1 / 2 ∧ s.p_targ = ⟨1, 0, 1⟩ ∧ s.v_targ = ⟨0, 3 / 4, 0⟩ ∧
      s.a_targ = ⟨-9 / 8, 0, 0⟩ := by
  have h := idle_ticks (specOps arcCurve) Members.zeroed (shapeConfig 2) 0
    [10000000, 20000000, 30000000] (shapeState 2) rfl rfl rfl (shapeState_constructed 2)
  have hrange : ticksInRange ((shapeConfig 2).windup_ratio * (shapeConfig 2).velocity_scaler) 0
      [10000000, 20000000, 30000000] := by
    norm_num [ticksInRange, scaledDelta, Duration.fromNSec, Duration.fromSec, Duration.toSec,
      INT32_MIN, INT32_MAX, NSEC, shapeConfig, Config.default]
  obtain ⟨s, hs⟩ := h.2 (by simp [shapeState]) hrange
  obtain ⟨a1, a2, a3, a4, _, _, ht⟩ := h.1 s hs
  obtain ⟨q, hq, _, hp, hv, ha, _⟩ := ht (by simp)
  have hq2 : q = .shape 1 ⟨0, 0, 1⟩ ⟨0, 0, 1⟩ (3 / 2) 1 := by
    simp [at?, shapeState] at hq
    exact hq.symm
  subst hq2
  have hr : (shapeConfig 2).reference_type ≠ 0 := by simp [shapeConfig]
  refine ⟨rfl, rfl, rfl, shapeState_constructed 2, s, hs, a1, a2, a3, ?_, ?_, ?_, ?_⟩
  · rw [a4]; simp [shapeConfig]
  · rw [hp]; norm_num [specOps, arcCurve]
  · rw [hv]; norm_num [specOps, arcCurve, shapeConfig, Vec3.scale]
  · rw [ha hr]; norm_num [specOps, arcCurve, shapeConfig, Vec3.scale]

/-- C10, counterexample. Shape family, reference type 0, configured windup ratio 1/2,
zeroed members, no trigger: after one fast tick the stored acceleration is `(0,0,0)`,
while the configured windup ratio times the selected primitive's acceleration at time
0 is `(-9/8,0,0)`. -/
theorem idle_ticks_counterexample :
    Members.zeroed.started_ = false ∧ Members.zeroed.prev_simulated_time_ = 0 ∧
    Members.zeroed.lap_ = 0 ∧
    ∃ s0, trajectoryPublisher (specOps arcCurve) Members.zeroed (shapeConfig 0) 0 = some s0 ∧
      ∃ s q, runTicks (specOps arcCurve) s0 [10000000] = some s ∧
        at? s.motionPrimitives_ s.motion_selector_ = some q ∧
        s.prev_simulated_time_ = 0 ∧
        s.a_targ = ⟨0, 0, 0⟩ ∧
        ((specOps arcCurve).getAcceleration q 0).scale (shapeConfig 0).windup_ratio
          = ⟨-9 / 8, 0, 0⟩ ∧
        s.a_targ ≠
          ((specOps arcCurve).getAcceleration q 0).scale (shapeConfig 0).windup_ratio := by
  refine ⟨rfl, rfl, rfl, shapeState 0, shapeState_constructed 0, ?_⟩
  norm_num [runTicks, updateReference, advanceClock, evaluateTarget, accumulate, scaledDelta,
    Duration.fromNSec, Duration.fromSec, Duration.toSec, INT32_MIN, INT32_MAX, NSEC,
    shapeState, shapeConfig, Config.default, defaultState, at?, specOps, arcCurve, Vec3.scale,
    Vec3.add, Vec3.zero]

/-! ## The selector -/

theorem step_length {P : Type} (ops : PrimitiveOps P) (s s1 : State P) (e : Event)
    (h : step ops s e = some s1) :
    s1.motionPrimitives_.length = s.motionPrimitives_.length ∧
      (s1.motion_selector_ = s.motion_selector_ ∨
        ∃ now, e = .motionselector s1.motion_selector_ now) := by
  cases e with
  | refTick now =>
    obtain ⟨sim, ps, q, _, hlen, _, _, hs1⟩ := updateReference_of_some ops s s1 now h
    subst hs1
    exact ⟨hlen, Or.inl rfl⟩
  | loopTick =>
    simp only [step, loopCallback] at h
    cases hq : at? s.motionPrimitives_ s.motion_selector_ with
    | none => simp [hq] at h
    | some q =>
      simp only [hq, Option.some.injEq] at h
      subst h
      exact ⟨rfl, Or.inl rfl⟩
  | trigger mode now =>
    simp only [step, Option.some.injEq] at h
    subst h
    exact ⟨rfl, Or.inl rfl⟩
  | motionselector data now =>
    simp only [step, Option.some.injEq] at h
    subst h
    exact ⟨by simp [motionselectorCallback, updatePrimitives], Or.inr ⟨now, rfl⟩⟩
  | mavpose pos =>
    simp only [step, Option.some.injEq] at h
    subst h
    exact ⟨by simp [mavposeCallback, updatePrimitives], Or.inl rfl⟩
  | mavtwist vel =>
    simp only [step, Option.some.injEq] at h
    subst h
    exact ⟨by simp [mavtwistCallback, updatePrimitives], Or.inl rfl⟩
  | reconfigure k =>
    simp only [step, Option.some.injEq, dynamicReconfigureCallback] at h
    subst h
    split
    · exact ⟨rfl, Or.inl rfl⟩
    · exact ⟨rfl, Or.inl rfl⟩

theorem step_valid {P : Type} (ops : PrimitiveOps P) (s s1 : State P) (e : Event)
    (hv : ValidSelection s) (he : selectorInRange s.motionPrimitives_.length e)
    (h : step ops s e = some s1) : ValidSelection s1 := by
  obtain ⟨hlen, hsel⟩ := step_length ops s s1 e h
  unfold ValidSelection
  rw [hlen]
  cases hsel with
  | inl hsame =>
    rw [hsame]
    exact hv
  | inr hmsg =>
    obtain ⟨now, hnow⟩ := hmsg
    subst hnow
    exact he

theorem run_valid {P : Type} (ops : PrimitiveOps P) (evs : List Event) :
    ∀ (s s1 : State P), ValidSelection s →
      (∀ e ∈ evs, selectorInRange s.motionPrimitives_.length e) →
      run ops s evs = some s1 → ValidSelection s1 := by
  induction evs with
  | nil =>
    intro s s1 hv _ h
    simp only [run, Option.some.injEq] at h
    subst h
    exact hv
  | cons e es ih =>
    intro s s1 hv he h
    unfold run at h
    cases hst : step ops s e with
    | none => simp [hst] at h
    | some s2 =>
      simp only [hst] at h
      have hv2 := step_valid ops s s2 e hv (he e (List.mem_cons_self e es)) hst
      have hlen := (step_length ops s s2 e hst).1
      refine ih s2 s1 hv2 ?_ h
      intro e1 he1
      rw [hlen]
      exact he e1 (List.mem_cons_of_mem e he1)

/-- C4 (amended). `motionselectorCallback` makes no bounds check: for every state and
every selector message, in range or not, the selected index becomes the index of the
message.  After a message whose index is negative or at least the number of
primitives, every fast tick throws at the bounds-checked lookup and stores no target.
The selected index stays a valid index through every sequence of callbacks that
starts from a state where it is valid and whose selector messages are all in range. -/
theorem motionselectorCallback_unchecked {P : Type} (ops : PrimitiveOps P) (s : State P)
    (data : Int) (now : Int) :
    (motionselectorCallback ops s data now).motion_selector_ = data ∧
    ((data < 0 ∨ (s.motionPrimitives_.length : Int) ≤ data) →
      ∀ now1 : Int, updateReference ops (motionselectorCallback ops s data now) now1 = none) ∧
    (∀ (evs : List Event) (s1 : State P), ValidSelection s →
      (∀ e ∈ evs, selectorInRange s.motionPrimitives_.length e) →
      run ops s evs = some s1 → ValidSelection s1) := by
  refine ⟨rfl, ?_, fun evs s1 hv he h => run_valid ops evs s s1 hv he h⟩
  intro hout now1
  apply updateReference_invalid
  have hlen : (motionselectorCallback ops s data now).motionPrimitives_.length
      = s.motionPrimitives_.length := by
    simp [motionselectorCallback, updatePrimitives]
  rw [hlen]
  exact hout

/-- C4 (amended), on the default object: index 7 is stored and the next tick throws;
selecting index 3 and ticking completes and keeps the selection valid. -/
theorem motionselectorCallback_unchecked_witness :
    ((7 : Int) < 0 ∨ (defaultState.motionPrimitives_.length : Int) ≤ 7) ∧
    (motionselectorCallback (specOps pointCurve) defaultState 7 0).motion_selector_ = 7 ∧
    updateReference (specOps pointCurve)
      (motionselectorCallback (specOps pointCurve) defaultState 7 0) 10000000 = none ∧
    ValidSelection defaultState ∧
    ∃ s1, run (specOps pointCurve) defaultState [.motionselector 3 0, .refTick 10000000]
      = some s1 ∧ ValidSelection s1 := by
  have hout : (7 : Int) < 0 ∨ (defaultState.motionPrimitives_.length : Int) ≤ 7 := by
    simp [defaultState]
  have h := motionselectorCallback_unchecked (specOps pointCurve) defaultState 7 0
  have h3 : (3 : Int).toNat = 3 := rfl
  have hrun : ∃ s1, run (specOps pointCurve) defaultState
      [.motionselector 3 0, .refTick 10000000] = some s1 := by
    norm_num [run, step, motionselectorCallback, updatePrimitives, updateReference,
      advanceClock, evaluateTarget, accumulate, scaledDelta, Duration.fromNSec,
      Duration.fromSec, Duration.toSec, INT32_MIN, INT32_MAX, NSEC, defaultState, at?, specOps,
      Vec3.scale, Vec3.add, h3]
  obtain ⟨s1, hs1⟩ := hrun
  refine ⟨hout, h.1, h.2.1 hout 10000000, defaultState_valid, s1, hs1, ?_⟩
  refine h.2.2 _ s1 defaultState_valid ?_ hs1
  intro e he
  simp only [List.mem_cons, List.mem_singleton, List.not_mem_nil, or_false] at he
  cases he with
  | inl h3 => subst h3; simp [selectorInRange, defaultState]
  | inr ht => subst ht; trivial

/-- C4, counterexample. On the object constructed with the default parameters (seven
primitives, selected index 0) the selector message 7 is not rejected: the selected
index becomes 7, which is not a valid index. -/
theorem motionselectorCallback_counterexample :
    ∃ s0, trajectoryPublisher (specOps pointCurve) Members.zeroed Config.default 0 = some s0 ∧
      s0.motionPrimitives_.length = 7 ∧ s0.motion_selector_ = 0 ∧
      (motionselectorCallback (specOps pointCurve) s0 7 0).motion_selector_ = 7 ∧
      (motionselectorCallback (specOps pointCurve) s0 7 0).motion_selector_
        ≠ s0.motion_selector_ ∧
      ¬ ValidSelection (motionselectorCallback (specOps pointCurve) s0 7 0) := by
  refine ⟨defaultState, defaultState_constructed, ?_⟩
  simp [motionselectorCallback, updatePrimitives, ValidSelection, defaultState]

/-! ## Lap counting -/

/-- What a completed fast tick does to the lap counter: it is raised by one exactly
when the new simulated time times `shape_omega_` exceeds `(lap_ + 1) × 2 × 3.14`, and
is otherwise unchanged; it never decreases. -/
theorem updateReference_lap {P : Type} (ops : PrimitiveOps P) (s s1 : State P) (now : Int)
    (h : updateReference ops s now = some s1) :
    (Duration.toSec s1.prev_simulated_time_ * s.shape_omega_
        > ((s.lap_ : ℚ) + 1) * (628 / 100) → s1.lap_ = s.lap_ + 1) ∧
    (¬ Duration.toSec s1.prev_simulated_time_ * s.shape_omega_
        > ((s.lap_ : ℚ) + 1) * (628 / 100) → s1.lap_ = s.lap_) ∧
    s.lap_ ≤ s1.lap_ := by
  obtain ⟨sim, ps, q, _, _, _, _, hs1⟩ := updateReference_of_some ops s s1 now h
  subst hs1
  have key : (Duration.toSec sim * s.shape_omega_
        - (((s.lap_ + 1) * 2 : Int) : ℚ) * (314 / 100) > 0) ↔
      Duration.toSec sim * s.shape_omega_ > ((s.lap_ : ℚ) + 1) * (628 / 100) := by
    push_cast
    constructor <;> intro hh <;> linarith
  refine ⟨?_, ?_, ?_⟩
  · intro hgt
    show nextLap s sim = s.lap_ + 1
    simp only [nextLap, key.mpr hgt, if_true]
  · intro hle
    show nextLap s sim = s.lap_
    have : ¬ (Duration.toSec sim * s.shape_omega_
        - (((s.lap_ + 1) * 2 : Int) : ℚ) * (314 / 100) > 0) := fun hh => hle (key.mp hh)
    simp only [nextLap, this, if_false]
  · show s.lap_ ≤ nextLap s sim
    unfold nextLap
    split
    · omega
    · exact le_refl _

/-- C3, failing input. Default parameters (`shape_omega` 1.5) with velocity scaler 1
and windup ratio 1; trigger at wall-clock time 0 and one fast tick at 4.188 s.  The
simulated time is then 4.188 s, its product with the angular rate is 6.282, which has
not passed `2π`, and yet the lap counter has gone from 0 to 1. -/
theorem updateReference_lap_before_full_turn :
    ∃ s0, trajectoryPublisher (specOps pointCurve) Members.zeroed lapConfig 0 = some s0 ∧
      s0.lap_ = 0 ∧
      ∃ s1, run (specOps pointCurve) s0 [.trigger true 0, .refTick 4188000000] = some s1 ∧
        s1.prev_simulated_time_ = 4188000000 ∧
        Duration.toSec s1.prev_simulated_time_ * s1.shape_omega_ = 6282 / 1000 ∧
        s1.lap_ = 1 ∧
        ((Duration.toSec s1.prev_simulated_time_ * s1.shape_omega_ : ℚ) : ℝ)
          < ((0 : ℝ) + 1) * (2 * Real.pi) := by
  refine ⟨lapState, lapState_constructed, rfl, ?_⟩
  have hpi : (6282 / 1000 : ℝ) < (0 + 1) * (2 * Real.pi) := by
    have := Real.pi_gt_d4
    linarith
  have hrun : run (specOps pointCurve) lapState [.trigger true 0, .refTick 4188000000]
      = some { lapState with
          prev_time_ := 4188000000, curr_time_ := 4188000000, started_ := true,
          prev_simulated_time_ := 4188000000, trigger_time_ := 4188 / 1000, lap_ := 1,
          p_targ := ⟨0, 0, 0⟩ } := by
    norm_num [run, step, triggerCallback, updateReference, advanceClock, evaluateTarget,
      accumulate, scaledDelta, Duration.fromNSec, Duration.fromSec, Duration.toSec, INT32_MIN,
      INT32_MAX, NSEC, lapState, defaultState, at?, specOps, Vec3.scale, Vec3.add]
  have hq : Duration.toSec 4188000000 * (3 / 2) = 6282 / 1000 := by
    norm_num [Duration.toSec]
  refine ⟨_, hrun, rfl, ?_, rfl, ?_⟩
  · show Duration.toSec 4188000000 * (3 / 2) = 6282 / 1000
    exact hq
  · show ((Duration.toSec 4188000000 * (3 / 2) : ℚ) : ℝ) < (0 + 1) * (2 * Real.pi)
    rw [hq]
    push_cast
    exact hpi

/-! ## The vehicle state at construction -/

/-- C7, failing input. Default parameters (initial position `(0,0,1)`, polynomial
family) and zeroed object memory, no pose or velocity message.  The constructor
generates every primitive from the unassigned `p_mav_ = (0,0,0)`, not from the
configured initial position, and the first fast tick replaces the target position
`(0,0,1)` set by the constructor with `(0,0,0)`. -/
theorem trajectoryPublisher_unassigned_vehicle_state :
    ∃ s0, trajectoryPublisher (specOps pointCurve) Members.zeroed Config.default 0 = some s0 ∧
      (Config.default.initpos_x, Config.default.initpos_y, Config.default.initpos_z) = (0, 0, 1) ∧
      s0.p_targ = ⟨0, 0, 1⟩ ∧
      s0.motionPrimitives_ = s0.inputs_.map
        (fun u => SpecPrimitive.polynomial ⟨0, 0, 0⟩ ⟨0, 0, 0⟩ u) ∧
      ∃ s1, updateReference (specOps pointCurve) s0 10000000 = some s1 ∧
        s1.p_targ = ⟨0, 0, 0⟩ ∧
        s1.p_targ ≠ ⟨Config.default.initpos_x, Config.default.initpos_y,
          Config.default.initpos_z⟩ := by
  refine ⟨defaultState, defaultState_constructed, rfl, rfl, by simp [defaultState], ?_⟩
  norm_num [updateReference, advanceClock, evaluateTarget, accumulate, scaledDelta,
    Duration.fromNSec, Duration.fromSec, Duration.toSec, INT32_MIN, INT32_MAX, NSEC,
    defaultState, at?, specOps, Vec3.scale, Vec3.add, Config.default]

/-- For every content `m` of the unassigned members and every polynomial
configuration, the constructor generates each primitive from `m.p_mav_` and
`m.v_mav_`; the configured initial position plays no part. -/
theorem trajectoryPublisher_generates_from_members {P : Type} (ops : PrimitiveOps P)
    (m : Members) (cfg : Config) (now : Int) (s0 : State P) (ht : cfg.trajectory_type = 0)
    (h : trajectoryPublisher ops m cfg now = some s0) :
    generateFrom ops m.p_mav_ m.v_mav_ s0.inputs_
      (List.replicate cfg.number_of_primitives.toNat ops.polynomialtrajectory) 0
        = some s0.motionPrimitives_ := by
  unfold trajectoryPublisher at h
  by_cases hn : cfg.number_of_primitives < 0
  · simp [hn] at h
  · simp only [hn, if_false, initializePrimitives, ht, if_true] at h
    split at h
    · exact Option.noConfusion h
    · rename_i ps hps
      simp only [Option.some.injEq] at h
      subst h
      exact hps

/-! ## Reachable states keep a jerk input for every primitive -/

theorem step_inputs {P : Type} (ops : PrimitiveOps P) (s s1 : State P) (e : Event)
    (h : step ops s e = some s1) :
    s1.inputs_ = s.inputs_ ∧ s1.trajectory_type_ = s.trajectory_type_ := by
  cases e with
  | refTick now =>
    obtain ⟨sim, ps, q, _, _, _, _, hs1⟩ := updateReference_of_some ops s s1 now h
    subst hs1
    exact ⟨rfl, rfl⟩
  | loopTick =>
    simp only [step, loopCallback] at h
    cases hq : at? s.motionPrimitives_ s.motion_selector_ with
    | none => simp [hq] at h
    | some q =>
      simp only [hq, Option.some.injEq] at h
      subst h
      exact ⟨rfl, rfl⟩
  | trigger mode now =>
    simp only [step, Option.some.injEq] at h
    subst h
    exact ⟨rfl, rfl⟩
  | motionselector data now =>
    simp only [step, Option.some.injEq] at h
    subst h
    exact ⟨rfl, rfl⟩
  | mavpose pos =>
    simp only [step, Option.some.injEq] at h
    subst h
    exact ⟨rfl, rfl⟩
  | mavtwist vel =>
    simp only [step, Option.some.injEq] at h
    subst h
    exact ⟨rfl, rfl⟩
  | reconfigure k =>
    simp only [step, Option.some.injEq, dynamicReconfigureCallback] at h
    subst h
    split
    · exact ⟨rfl, rfl⟩
    · exact ⟨rfl, rfl⟩

theorem step_cover {P : Type} (ops : PrimitiveOps P) (s s1 : State P) (e : Event)
    (hin : InputsCover s) (h : step ops s e = some s1) : InputsCover s1 := by
  obtain ⟨hi, ht⟩ := step_inputs ops s s1 e h
  have hlen := (step_length ops s s1 e h).1
  intro h0
  rw [hlen, hi]
  exact hin (by rw [← ht]; exact h0)

/-- In every state reached from construction, the loop of `initializePrimitives` stays
inside `inputs_`: a fast tick can only throw at the lookup of the selected primitive. -/
theorem run_cover {P : Type} (ops : PrimitiveOps P) (evs : List Event) :
    ∀ (s s1 : State P), InputsCover s → run ops s evs = some s1 → InputsCover s1 := by
  induction evs with
  | nil =>
    intro s s1 hin h
    simp only [run, Option.some.injEq] at h
    subst h
    exact hin
  | cons e es ih =>
    intro s s1 hin h
    unfold run at h
    cases hst : step ops s e with
    | none => simp [hst] at h
    | some s2 =>
      simp only [hst] at h
      exact ih s2 s1 (step_cover ops s s2 e hin hst) h

end TrajectoryPublisher
